import Mathlib

/-!
Sawaed Al-Khair site script (`src/js/main.js`): form validation and dispatch.

A shallow embedding of the form pipeline of `main.js`:

* `FormValidator` (`validateForm`, `validateField`, `showError`, `clearError`),
* the `submit`, `input` and `blur` listeners registered by `FormValidator.init`,
  `FormSubmissionHandler.init` and the two WhatsApp handlers,
* the text blocks and URLs the WhatsApp handlers pass to `window.open`,
* `FilterTabs` (`filterItems`, `fadeIn`, `fadeOut`) with the timers it sets.

JavaScript strings are modelled as lists of characters.  A character outside
the Basic Multilingual Plane is two code units in JavaScript; `trim` and the two
regular expressions of `validateField` treat either reading alike, since no such
unit is white space, `@`, `.` or a digit.  Numbers are binary64 values:
`parseFloat` rounds the decimal it reads.  The DOM is modelled by the state the
validator reads and writes: the `error` class of a field, its `aria-invalid`
attribute, and the `.error-message` elements of the document in document
order, each with the element it is a child of; which element lies inside which
is part of the page.  Time is a clock in milliseconds with a list of pending
timers; a timer fires when the clock reaches its due time.
-/

namespace SawaedAlKhair

/-- A JavaScript string, as the list of its characters. -/
abbrev Str := List Char

/-! ## Strings: white space, `trim`, regular expressions -/

/-- The characters ECMAScript counts as WhiteSpace or LineTerminator.  This is
the set `String.prototype.trim` strips and the set the regex class `\s`
matches. -/
def isWhiteSpace (c : Char) : Bool :=
  let n := c.toNat
  n == 0x09 || n == 0x0A || n == 0x0B || n == 0x0C || n == 0x0D || n == 0x20 ||
  n == 0xA0 || n == 0x1680 || (0x2000 ≤ n && n ≤ 0x200A) || n == 0x2028 ||
  n == 0x2029 || n == 0x202F || n == 0x205F || n == 0x3000 || n == 0xFEFF

/-- The method `String.prototype.trim`: white space removed from both ends. -/
def trim (s : Str) : Str :=
  ((s.dropWhile isWhiteSpace).reverse.dropWhile isWhiteSpace).reverse

/-- The call `s.replace(/\s/g, '')`: every white-space character removed. -/
def stripWhiteSpace (s : Str) : Str :=
  s.filter (fun c => !isWhiteSpace c)

/-- Regular expressions of the shape used in `main.js`: character classes,
concatenation, and quantifiers applied to a character class.  `many p` is the
class `p` under `*`. -/
inductive Regex where
  | nothing : Regex
  | eps : Regex
  | cls (p : Char → Bool) : Regex
  | many (p : Char → Bool) : Regex
  | alt (r s : Regex) : Regex
  | seq (r s : Regex) : Regex

namespace Regex

/-- The class `p` under `+`. -/
def some (p : Char → Bool) : Regex := seq (cls p) (many p)

/-- The class `p` under the counted quantifier `{n}`. -/
def count (p : Char → Bool) : Nat → Regex
  | 0 => eps
  | n + 1 => seq (cls p) (count p n)

/-- The single character `a`. -/
def lit (a : Char) : Regex := cls (fun c => c == a)

/-- Whether the expression matches the empty string. -/
def nullable : Regex → Bool
  | nothing => false
  | eps => true
  | cls _ => false
  | many _ => true
  | alt r s => nullable r || nullable s
  | seq r s => nullable r && nullable s

/-- The derivative of an expression by one character. -/
def deriv : Regex → Char → Regex
  | nothing, _ => nothing
  | eps, _ => nothing
  | cls p, c => if p c then eps else nothing
  | many p, c => if p c then many p else nothing
  | alt r s, c => alt (deriv r c) (deriv s c)
  | seq r s, c =>
      if nullable r then alt (seq (deriv r c) s) (deriv s c) else seq (deriv r c) s

/-- The method `RegExp.prototype.test` for a pattern anchored by `^` and `$`:
whether the whole string matches. -/
def test (r : Regex) (w : Str) : Bool :=
  nullable (w.foldl deriv r)

/-- The strings an expression denotes. -/
def Matches : Regex → Str → Prop
  | nothing, _ => False
  | eps, w => w = []
  | cls p, w => ∃ c, p c = true ∧ w = [c]
  | many p, w => ∀ c ∈ w, p c = true
  | alt r s, w => Matches r w ∨ Matches s w
  | seq r s, w => ∃ u v, w = u ++ v ∧ Matches r u ∧ Matches s v

end Regex

/-- The class `[^\s@]`. -/
def notSpaceNotAt (c : Char) : Bool := !isWhiteSpace c && c != '@'

/-- The class `[0-9]`. -/
def isDigit (c : Char) : Bool := '0' ≤ c && c ≤ '9'

/-- The literal `/^[^\s@]+@[^\s@]+\.[^\s@]+$/` of `validateField`. -/
def emailRegex : Regex :=
  .seq (.some notSpaceNotAt) (.seq (.lit '@') (.seq (.some notSpaceNotAt)
    (.seq (.lit '.') (.some notSpaceNotAt))))

/-- The literal `/^01[0-9]{9}$/` of `validateField`. -/
def phoneRegex : Regex :=
  .seq (.lit '0') (.seq (.lit '1') (.count isDigit 9))

/-! ## Numbers: `parseFloat` and the comparisons of `validateField` -/

/-- A JavaScript number as `parseFloat` produces it: `NaN`, an infinity, or the
finite binary64 value `m × 2^e`.  Negative zero is not told apart from zero,
which `<` and `>` do not tell apart either. -/
inductive Num where
  | nan : Num
  | negInf : Num
  | posInf : Num
  | fin (m : Int) (e : Int) : Num
  deriving DecidableEq, Repr

/-- The operator `<` on numbers: false whenever an operand is `NaN`. -/
def Num.lt : Num → Num → Bool
  | .nan, _ => false
  | _, .nan => false
  | .negInf, .negInf => false
  | .negInf, _ => true
  | _, .negInf => false
  | .posInf, _ => false
  | _, .posInf => true
  | .fin m e, .fin m' e' =>
      let k := min e e'
      decide (m * 2 ^ (e - k).toNat < m' * 2 ^ (e' - k).toNat)

/-- The integer a number is, when it is one. -/
def Num.toInt? : Num → Option Int
  | .fin m e =>
      if 0 ≤ e then Option.some (m * 2 ^ e.toNat)
      else if m % 2 ^ (-e).toNat = 0 then Option.some (m / 2 ^ (-e).toNat) else none
  | _ => none

/-- The number of binary digits of `n`, by halving at most `fuel` times. -/
def bitLengthAux : Nat → Nat → Nat
  | 0, _ => 0
  | fuel + 1, n => if n = 0 then 0 else bitLengthAux fuel (n / 2) + 1

/-- The number of binary digits of `n`. -/
def bitLength (n : Nat) : Nat := bitLengthAux n n

/-- The quotient `a / b` rounded to the nearest integer, ties to even. -/
def divRoundEven (a b : Nat) : Nat :=
  let q := a / b
  let r := a % b
  if 2 * r < b then q
  else if b < 2 * r then q + 1
  else if q % 2 = 0 then q else q + 1

/-- The binary64 value `m × 2^p` nearest to `num / den` (ties to even), as the
pair `(m, p)`: the exponent is chosen so that the quotient has 53 binary
digits, and not below `-1074`, the exponent of the subnormal numbers; `none`
when the result exceeds the largest finite value and rounds to infinity. -/
def roundBinary64 (num den : Nat) : Option (Nat × Int) :=
  if num = 0 then Option.some (0, 0)
  else
    let p₀ : Int := (bitLength num : Int) - (bitLength den : Int) - 53
    let q₀ := (num * 2 ^ (-p₀).toNat) / (den * 2 ^ p₀.toNat)
    let p₁ : Int := if q₀ < 2 ^ 53 then p₀ else p₀ + 1
    let p : Int := max p₁ (-1074)
    let m := divRoundEven (num * 2 ^ (-p).toNat) (den * 2 ^ p.toNat)
    if 971 < p ∨ (p = 971 ∧ 2 ^ 53 ≤ m) then none else Option.some (m, p)

/-- The value of a run of decimal digits. -/
def digitsVal (ds : Str) : Nat :=
  ds.foldl (fun acc c => 10 * acc + (c.toNat - '0'.toNat)) 0

/-- An optional sign in front of the rest of the text. -/
def splitSign : Str → Bool × Str
  | '-' :: r => (true, r)
  | '+' :: r => (false, r)
  | r => (false, r)

/-- The ExponentPart of a decimal literal, if the text starts with a complete
one; `0` otherwise. -/
def parseExponent : Str → Int
  | c :: q =>
      if c == 'e' || c == 'E' then
        let sd := splitSign q
        let ds := sd.2.takeWhile isDigit
        if ds.isEmpty then 0
        else if sd.1 then -(digitsVal ds : Int) else (digitsVal ds : Int)
      else 0
  | [] => 0

/-- The global function `parseFloat`: leading white space is skipped, the
longest prefix that is a StrDecimalLiteral is read, and the decimal it denotes
is rounded to binary64; `NaN` when there is no such prefix. -/
def parseFloat (s : Str) : Num :=
  let su := splitSign (s.dropWhile isWhiteSpace)
  let u := su.2
  if "Infinity".toList.isPrefixOf u then (if su.1 then .negInf else .posInf)
  else
    let ip := u.takeWhile isDigit
    let r := u.dropWhile isDigit
    let fr : Str × Str :=
      match r with
      | '.' :: q => (q.takeWhile isDigit, q.dropWhile isDigit)
      | _ => ([], r)
    if ip.isEmpty && fr.1.isEmpty then .nan
    else
      let m : Nat := digitsVal (ip ++ fr.1)
      let e : Int := parseExponent fr.2 - fr.1.length
      match roundBinary64 (m * 10 ^ e.toNat) (10 ^ (-e).toNat) with
      | Option.some (b, p) => .fin (if su.1 then -(b : Int) else (b : Int)) p
      | none => if su.1 then .negInf else .posInf

/-! ## The DOM state of the validator -/

/-- A form control (`input`, `textarea` or `select`) as `FormValidator` reads
it.  `id` identifies the element, `parent` its `parentElement`; `min` and `max`
are the results of `getAttribute` (`none` for `null`). -/
structure Field where
  id : String
  parent : Nat
  value : Str
  type : String
  required : Bool
  min : Option Str
  max : Option Str

/-- An `.error-message` element of the document: its place in document order,
the element it is a child of, and its text content. -/
structure Feedback where
  pos : Nat
  owner : Nat
  text : Str

/-- The part of the document `showError` and `clearError` read and write: the
`error` class and the `aria-invalid` attribute of every control, and the
`.error-message` elements in document order.  The structure of the page is
given by `encloses a q`, which says that the element `q` lies inside the
element `a`, and by `endPos a`, the place in document order at which a child
appended to `a` lands; neither is changed by the validator. -/
structure Dom where
  errorClass : String → Bool
  ariaInvalid : String → Option Str
  encloses : Nat → Nat → Bool
  endPos : Nat → Nat
  messages : List Feedback

/-- Whether a feedback element is a descendant of the element `p`: a child of
`p` or of an element inside `p`. -/
def Dom.below (σ : Dom) (p : Nat) (x : Feedback) : Bool :=
  x.owner == p || σ.encloses p x.owner

/-- The text contents of the `.error-message` elements below the element `p`,
in document order; `p.querySelector('.error-message')` is the first. -/
def Dom.feedback (σ : Dom) (p : Nat) : List Str :=
  (σ.messages.filter (σ.below p)).map (fun x => x.text)

/-- The assignment `errorElement.textContent = message` on the first element
satisfying `found`. -/
def setFirstText (found : Feedback → Bool) (message : Str) : List Feedback → List Feedback
  | [] => []
  | x :: rest =>
      if found x then { x with text := message } :: rest
      else x :: setFirstText found message rest

/-- A new element put at its place in document order. -/
def placeMessage (x : Feedback) (l : List Feedback) : List Feedback :=
  l.takeWhile (fun y => y.pos ≤ x.pos) ++ x :: l.dropWhile (fun y => y.pos ≤ x.pos)

/-- The method `FormValidator.clearError`: the element
`field.parentElement.querySelector('.error-message')`, the first feedback
element below the parent, is removed if there is one. -/
def clearError (field : Field) (σ : Dom) : Dom :=
  { σ with
    errorClass := fun i => if i = field.id then false else σ.errorClass i
    messages := σ.messages.eraseP (σ.below field.parent)
    ariaInvalid := fun i => if i = field.id then none else σ.ariaInvalid i }

/-- The method `FormValidator.showError`: the first feedback element below the
parent gets the message as text; when there is none, a new one is appended to
the parent. -/
def showError (field : Field) (message : Str) (σ : Dom) : Dom :=
  { σ with
    errorClass := fun i => if i = field.id then true else σ.errorClass i
    messages :=
      match σ.messages.find? (σ.below field.parent) with
      | Option.some _ => setFirstText (σ.below field.parent) message σ.messages
      | none =>
          placeMessage
            { pos := σ.endPos field.parent, owner := field.parent, text := message } σ.messages
    ariaInvalid := fun i => if i = field.id then Option.some "true".toList else σ.ariaInvalid i }

/-- The text of the element `field.parentElement.querySelector('.error-message')`,
if there is one: the message displayed for the field. -/
def shownMessage (field : Field) (σ : Dom) : Option Str :=
  (σ.feedback field.parent).head?

/-! ## `FormValidator.validateField` -/

/-- The required-field message. -/
def msgRequired : Str := "هذا الحقل مطلوب".toList

/-- The invalid-email message. -/
def msgEmail : Str := "البريد الإلكتروني غير صحيح".toList

/-- The invalid-phone message. -/
def msgPhone : Str := "رقم الهاتف غير صحيح (يجب أن يبدأ بـ 01 ويتكون من 11 رقم)".toList

/-- The at-least message, a template around the `min` attribute. -/
def msgMin (min : Str) : Str := "القيمة يجب أن تكون ".toList ++ min ++ " على الأقل".toList

/-- The at-most message, a template around the `max` attribute. -/
def msgMax (max : Str) : Str := "القيمة يجب أن تكون ".toList ++ max ++ " كحد أقصى".toList

/-- The number branch of `validateField`: two independent `if` statements, the
second assigning after the first. -/
def numberVerdict (min max : Option Str) (value : Str) : Bool × Str :=
  let numValue := parseFloat value
  let afterMin : Bool × Str :=
    match min with
    | Option.some lo =>
        if !lo.isEmpty && numValue.lt (parseFloat lo) then (false, msgMin lo) else (true, [])
    | none => (true, [])
  match max with
  | Option.some hi =>
      if !hi.isEmpty && (parseFloat hi).lt numValue then (false, msgMax hi) else afterMin
  | none => afterMin

/-- The locals `isValid` and `errorMessage` of `validateField` when control
reaches the final `if (!isValid)`. -/
def fieldVerdict (field : Field) : Bool × Str :=
  let value := trim field.value
  let type := field.type
  if field.required && value.isEmpty then (false, msgRequired)
  else if type == "email" && !value.isEmpty then
    if !emailRegex.test value then (false, msgEmail) else (true, [])
  else if type == "tel" && !value.isEmpty then
    if !phoneRegex.test (stripWhiteSpace value) then (false, msgPhone) else (true, [])
  else if type == "number" && !value.isEmpty then
    numberVerdict field.min field.max value
  else (true, [])

/-- The method `FormValidator.validateField`: the previous error is cleared,
the verdict computed, and an invalid verdict shown; returns `isValid`. -/
def validateField (field : Field) (σ : Dom) : Bool × Dom :=
  let σ₁ := clearError field σ
  let v := fieldVerdict field
  if !v.1 then (v.1, showError field v.2 σ₁) else (v.1, σ₁)

/-! ## `FormValidator.validateForm` -/

/-- The query `form.querySelectorAll('input[required], textarea[required],
select[required]')` on a form given by its controls in document order. -/
def requiredInputs (form : List Field) : List Field :=
  form.filter (fun input => input.required)

/-- The method `FormValidator.validateForm`: a `forEach` over the required
controls that assigns `isValid = false` whenever `validateField` fails. -/
def validateForm (form : List Field) (σ : Dom) : Bool × Dom :=
  (requiredInputs form).foldl
    (fun (acc : Bool × Dom) input =>
      let r := validateField input acc.2
      if !r.1 then (false, r.2) else (acc.1, r.2))
    (true, σ)

/-! ## The WhatsApp text blocks and URLs -/

/-- The expression `x || '-'` on a string. -/
def orDash (x : Str) : Str := if x.isEmpty then "-".toList else x

/-- The `.value` of the ten controls the volunteer handler reads. -/
structure VolunteerValues where
  fullName : Str
  age : Str
  phone : Str
  email : Str
  city : Str
  field : Str
  availability : Str
  experience : Str
  motivation : Str
  skills : Str

/-- The `.value` of the five controls the contact handler reads. -/
structure ContactValues where
  name : Str
  phone : Str
  email : Str
  subject : Str
  message : Str

/-- The constant `phoneNumber` of both handlers. -/
def phoneNumber : Str := "201012448385".toList

/-- The template literal `text` of the volunteer handler.  Every line of the
literal ends in the characters `%0A` and is followed by the line break of the
source text. -/
def volunteerText (v : VolunteerValues) : Str :=
  let email := orDash v.email
  let experience := orDash v.experience
  let skills := orDash v.skills
  "طلب تطوع جديد:%0A\n".toList ++
  "الاسم الكامل: ".toList ++ v.fullName ++ "%0A\n".toList ++
  "العمر: ".toList ++ v.age ++ "%0A\n".toList ++
  "رقم الهاتف: ".toList ++ v.phone ++ "%0A\n".toList ++
  "البريد الإلكتروني: ".toList ++ email ++ "%0A\n".toList ++
  "المحافظة/المدينة: ".toList ++ v.city ++ "%0A\n".toList ++
  "المجال المهتم به: ".toList ++ v.field ++ "%0A\n".toList ++
  "الوقت المتاح: ".toList ++ v.availability ++ "%0A\n".toList ++
  "الخبرة السابقة: ".toList ++ experience ++ "%0A\n".toList ++
  "الدافع للتطوع: ".toList ++ v.motivation ++ "%0A\n".toList ++
  "المهارات الخاصة: ".toList ++ skills

/-- The template literal `text` of the contact handler. -/
def contactText (v : ContactValues) : Str :=
  let email := orDash v.email
  "رسالة جديدة من نموذج الاتصال من الموقع:%0A\n".toList ++
  "الاسم الكامل: ".toList ++ v.name ++ "%0A\n".toList ++
  "رقم الهاتف: ".toList ++ v.phone ++ "%0A\n".toList ++
  "البريد الإلكتروني: ".toList ++ email ++ "%0A\n".toList ++
  "الموضوع: ".toList ++ v.subject ++ "%0A\n".toList ++
  "الرسالة: ".toList ++ v.message

/-- The template literal passed to `window.open`. -/
def waUrl (text : Str) : Str :=
  "https://wa.me/".toList ++ phoneNumber ++ "?text=".toList ++ text

/-- The URL the volunteer handler opens. -/
def volunteerUrl (v : VolunteerValues) : Str := waUrl (volunteerText v)

/-- The URL the contact handler opens. -/
def contactUrl (v : ContactValues) : Str := waUrl (contactText v)

/-! ## The `submit` listeners -/

/-- The state a `submit` event acts on: the validator's DOM state, the
`defaultPrevented` flag of the event, the loading overlays shown, and the URLs
passed to `window.open`, oldest first. -/
structure Page where
  dom : Dom
  defaultPrevented : Bool
  loaders : Nat
  opened : List Str

/-- The expression `document.getElementById(id).value`; `none` when there is
no such element (the property read throws). -/
def getValue (doc : List Field) (id : String) : Option Str :=
  (doc.find? (fun el => el.id == id)).map (fun el => el.value)

/-- The ten reads of the volunteer handler, in source order. -/
def readVolunteer (doc : List Field) : Option VolunteerValues := do
  let fullName ← getValue doc "full-name"
  let age ← getValue doc "age"
  let phone ← getValue doc "phone"
  let email ← getValue doc "email"
  let city ← getValue doc "city"
  let field ← getValue doc "field"
  let availability ← getValue doc "availability"
  let experience ← getValue doc "experience"
  let motivation ← getValue doc "motivation"
  let skills ← getValue doc "skills"
  pure { fullName, age, phone, email, city, field, availability, experience, motivation, skills }

/-- The five reads of the contact handler, in source order. -/
def readContact (doc : List Field) : Option ContactValues := do
  let name ← getValue doc "contact-name"
  let phone ← getValue doc "contact-phone"
  let email ← getValue doc "contact-email"
  let subject ← getValue doc "contact-subject"
  let message ← getValue doc "contact-message"
  pure { name, phone, email, subject, message }

/-- The listener `FormValidator.init` adds to every form. -/
def validatorListener (form : List Field) (p : Page) : Page :=
  let r := validateForm form p.dom
  { p with dom := r.2, defaultPrevented := p.defaultPrevented || !r.1 }

/-- The listener `FormSubmissionHandler.init` adds to every form, up to its
`setTimeout` call: the deferred callback runs after the event. -/
def overlayListener (p : Page) : Page :=
  { p with defaultPrevented := true, loaders := p.loaders + 1 }

/-- The listener added to `#volunteer-form`.  When a read throws, the handler
stops after `preventDefault`. -/
def volunteerListener (doc : List Field) (p : Page) : Page :=
  match readVolunteer doc with
  | Option.some v => { p with defaultPrevented := true, opened := p.opened ++ [volunteerUrl v] }
  | none => { p with defaultPrevented := true }

/-- The listener added to `.contact-form`. -/
def contactListener (doc : List Field) (p : Page) : Page :=
  match readContact doc with
  | Option.some v => { p with defaultPrevented := true, opened := p.opened ++ [contactUrl v] }
  | none => { p with defaultPrevented := true }

/-- A `submit` event on the volunteer form: its listeners in the order the two
`DOMContentLoaded` handlers registered them. -/
def submitVolunteer (doc form : List Field) (p : Page) : Page :=
  volunteerListener doc (overlayListener (validatorListener form p))

/-- A `submit` event on the contact form. -/
def submitContact (doc form : List Field) (p : Page) : Page :=
  contactListener doc (overlayListener (validatorListener form p))

/-! ## Shapes of values, in the words of the specification and of the code -/

/-- The e-mail shape as the specification words it: a non-empty run free of
white space and `@`, an `@`, a second such run, a `.`, and a non-empty run of
non-white-space characters. -/
def SpecEmailShape (v : Str) : Prop :=
  ∃ a b c : Str, v = a ++ '@' :: b ++ '.' :: c ∧
    a ≠ [] ∧ (∀ x ∈ a, isWhiteSpace x = false ∧ x ≠ '@') ∧
    b ≠ [] ∧ (∀ x ∈ b, isWhiteSpace x = false ∧ x ≠ '@') ∧
    c ≠ [] ∧ (∀ x ∈ c, isWhiteSpace x = false)

/-- The e-mail shape with the last run free of `@` as well. -/
def EmailShape (v : Str) : Prop :=
  ∃ a b c : Str, v = a ++ '@' :: b ++ '.' :: c ∧
    a ≠ [] ∧ (∀ x ∈ a, isWhiteSpace x = false ∧ x ≠ '@') ∧
    b ≠ [] ∧ (∀ x ∈ b, isWhiteSpace x = false ∧ x ≠ '@') ∧
    c ≠ [] ∧ (∀ x ∈ c, isWhiteSpace x = false ∧ x ≠ '@')

/-- The phone shape, in the words of the specification: exactly eleven decimal
digits, the first two being `0` and `1`. -/
def PhoneShape (s : Str) : Prop :=
  s.length = 11 ∧ (∀ c ∈ s, isDigit c = true) ∧ s.take 2 = ['0', '1']

/-! ## The text block, line by line -/

/-- The lines of the volunteer block: the introductory line, then one
`label: value` line per field in the fixed order, `-` standing for an empty
e-mail, experience or skills value. -/
def volunteerLines (v : VolunteerValues) : List Str :=
  [ "طلب تطوع جديد:".toList,
    "الاسم الكامل: ".toList ++ v.fullName,
    "العمر: ".toList ++ v.age,
    "رقم الهاتف: ".toList ++ v.phone,
    "البريد الإلكتروني: ".toList ++ orDash v.email,
    "المحافظة/المدينة: ".toList ++ v.city,
    "المجال المهتم به: ".toList ++ v.field,
    "الوقت المتاح: ".toList ++ v.availability,
    "الخبرة السابقة: ".toList ++ orDash v.experience,
    "الدافع للتطوع: ".toList ++ v.motivation,
    "المهارات الخاصة: ".toList ++ orDash v.skills ]

/-- The lines of the contact block, `-` standing for an empty e-mail value. -/
def contactLines (v : ContactValues) : List Str :=
  [ "رسالة جديدة من نموذج الاتصال من الموقع:".toList,
    "الاسم الكامل: ".toList ++ v.name,
    "رقم الهاتف: ".toList ++ v.phone,
    "البريد الإلكتروني: ".toList ++ orDash v.email,
    "الموضوع: ".toList ++ v.subject,
    "الرسالة: ".toList ++ v.message ]

/-- The fixed front of every opened URL. -/
def waPrefix : Str := "https://wa.me/201012448385?text=".toList

/-! ## Reading the opened URL: the `text` query parameter and its decoding -/

/-- The value of a hexadecimal digit. -/
def hexVal (c : Char) : Option Nat :=
  if '0' ≤ c ∧ c ≤ '9' then Option.some (c.toNat - '0'.toNat)
  else if 'a' ≤ c ∧ c ≤ 'f' then Option.some (c.toNat - 'a'.toNat + 10)
  else if 'A' ≤ c ∧ c ≤ 'F' then Option.some (c.toNat - 'A'.toNat + 10)
  else none

/-- The byte an escape names, given the text after its `%` sign: two
hexadecimal digits. -/
def escapeAt : Str → Option Nat
  | a :: b :: _ =>
      match hexVal a, hexVal b with
      | Option.some x, Option.some y => Option.some (16 * x + y)
      | _, _ => none
  | _ => none

/-- The UTF-8 encoding of a character, as bytes. -/
def utf8Bytes (c : Char) : List Nat :=
  let n := c.toNat
  if n < 0x80 then [n]
  else if n < 0x800 then [0xC0 + n / 64, 0x80 + n % 64]
  else if n < 0x10000 then [0xE0 + n / 4096, 0x80 + n / 64 % 64, 0x80 + n % 64]
  else [0xF0 + n / 262144, 0x80 + n / 4096 % 64, 0x80 + n / 64 % 64, 0x80 + n % 64]

/-- Percent-decoding to bytes, after skipping the given number of characters
(the two digits of an escape just decoded): an escape `%XY` gives the byte it
names, any other character gives the bytes of its UTF-8 encoding, which is how
the URL parser had written it into the query. -/
def percentDecodeFrom : Nat → Str → List Nat
  | _, [] => []
  | n + 1, _ :: t => percentDecodeFrom n t
  | 0, c :: t =>
      if c == '%' then
        match escapeAt t with
        | Option.some byte => byte :: percentDecodeFrom 2 t
        | none => utf8Bytes c ++ percentDecodeFrom 0 t
      else utf8Bytes c ++ percentDecodeFrom 0 t

/-- An open multi-byte sequence of the UTF-8 decoder: the code point so far,
the continuation bytes needed and seen, and the range the next byte must lie
in. -/
structure Utf8State where
  codePoint : Nat
  needed : Nat
  seen : Nat
  lower : Nat
  upper : Nat

/-- The replacement character U+FFFD. -/
def replacementChar : Char := Char.ofNat 0xFFFD

/-- The UTF-8 decoder on a byte when no sequence is open: a character at once,
or a sequence opened by a lead byte. -/
def utf8Lead (b : Nat) : Char ⊕ Utf8State :=
  if b < 0x80 then .inl (Char.ofNat b)
  else if 0xC2 ≤ b ∧ b ≤ 0xDF then
    .inr { codePoint := b - 0xC0, needed := 1, seen := 0, lower := 0x80, upper := 0xBF }
  else if 0xE0 ≤ b ∧ b ≤ 0xEF then
    .inr { codePoint := b - 0xE0, needed := 2, seen := 0,
           lower := if b = 0xE0 then 0xA0 else 0x80, upper := if b = 0xED then 0x9F else 0xBF }
  else if 0xF0 ≤ b ∧ b ≤ 0xF4 then
    .inr { codePoint := b - 0xF0, needed := 3, seen := 0,
           lower := if b = 0xF0 then 0x90 else 0x80, upper := if b = 0xF4 then 0x8F else 0xBF }
  else .inl replacementChar

/-- The UTF-8 decoder of the Encoding standard: a malformed sequence gives
U+FFFD and the byte that broke it is read again as the start of the next. -/
def utf8DecodeFrom : Option Utf8State → List Nat → Str
  | none, [] => []
  | Option.some _, [] => [replacementChar]
  | none, b :: bs =>
      match utf8Lead b with
      | .inl c => c :: utf8DecodeFrom none bs
      | .inr st => utf8DecodeFrom (Option.some st) bs
  | Option.some st, b :: bs =>
      if st.lower ≤ b ∧ b ≤ st.upper then
        if st.seen + 1 = st.needed then
          Char.ofNat (st.codePoint * 64 + b % 64) :: utf8DecodeFrom none bs
        else
          utf8DecodeFrom
            (Option.some { codePoint := st.codePoint * 64 + b % 64, needed := st.needed,
                           seen := st.seen + 1, lower := 0x80, upper := 0xBF }) bs
      else
        match utf8Lead b with
        | .inl c => replacementChar :: c :: utf8DecodeFrom none bs
        | .inr st' => replacementChar :: utf8DecodeFrom (Option.some st') bs

/-- Percent-decoding: the escapes are turned into bytes and the bytes are read
as UTF-8. -/
def percentDecode (s : Str) : Str := utf8DecodeFrom none (percentDecodeFrom 0 s)

/-- Decoding of a query value: `+` stands for a space, then percent-decoding. -/
def formDecode (s : Str) : Str :=
  percentDecode (s.map (fun c => if c == '+' then ' ' else c))

/-- The pieces of a string between the occurrences of a separator. -/
def splitOnChar (sep : Char) (s : Str) : List Str :=
  s.foldr
    (fun c acc =>
      if c == sep then [] :: acc
      else
        match acc with
        | [] => [[c]]
        | piece :: more => (c :: piece) :: more)
    [[]]

/-- A C0 control character or a space: what a URL parser removes from the two
ends of its input. -/
def isC0OrSpace (c : Char) : Bool := c.toNat ≤ 0x20

/-- An ASCII tab or newline: what a URL parser removes from anywhere in its
input. -/
def isTabOrNewline (c : Char) : Bool := c == '\t' || c == '\n' || c == '\r'

/-- The decoded value of the query parameter `text` of a URL given as text,
following the URL parser: the ends are stripped of C0 controls and spaces, tabs
and newlines are removed, the fragment after `#` is cut off, the query starts
after the first `?` and its parameters are separated by `&`.  The parser
percent-encodes spaces and non-ASCII characters as UTF-8 bytes; `formDecode`
reads an unescaped character as those bytes. -/
def textParam (url : Str) : Option Str :=
  let stripped := (url.dropWhile isC0OrSpace).rdropWhile isC0OrSpace
  let cleaned := stripped.filter (fun c => !isTabOrNewline c)
  let noFragment := cleaned.takeWhile (fun c => c != '#')
  let query := (noFragment.dropWhile (fun c => c != '?')).drop 1
  ((splitOnChar '&' query).find? (fun p => "text=".toList.isPrefixOf p)).map
    (fun p => formDecode (p.drop 5))

/-! ## Sample pages and values -/

/-- An empty presenter state: no error class, no attribute, no feedback, no
element inside another. -/
def Dom.empty : Dom :=
  { errorClass := fun _ => false, ariaInvalid := fun _ => none, encloses := fun _ _ => false,
    endPos := fun p => p, messages := [] }

/-- A page on which the element `p` has one feedback child with the given text
and no control is marked. -/
def Dom.showing (p : Nat) (text : Str) : Dom :=
  { Dom.empty with messages := [{ pos := p, owner := p, text := text }] }

/-- A page before any `submit` event. -/
def Page.initial : Page :=
  { dom := Dom.empty, defaultPrevented := false, loaders := 0, opened := [] }

/-- A form of three controls: a blank required name, a required phone holding
`01123`, and an optional note. -/
def sampleForm : List Field :=
  [ { id := "full-name", parent := 1, value := "  ".toList, type := "text",
      required := true, min := none, max := none },
    { id := "phone", parent := 2, value := "01123".toList, type := "tel",
      required := true, min := none, max := none },
    { id := "note", parent := 3, value := [], type := "textarea",
      required := false, min := none, max := none } ]

/-- The controls of a volunteer form in which the required phone control holds
`01123`; every other required control is filled in. -/
def volunteerDoc : List Field :=
  [ { id := "full-name", parent := 1, value := "Ahmed".toList, type := "text",
      required := true, min := none, max := none },
    { id := "age", parent := 2, value := "22".toList, type := "number",
      required := true, min := Option.some "16".toList, max := Option.some "80".toList },
    { id := "phone", parent := 3, value := "01123".toList, type := "tel",
      required := true, min := none, max := none },
    { id := "email", parent := 4, value := [], type := "email",
      required := false, min := none, max := none },
    { id := "city", parent := 5, value := "Cairo".toList, type := "text",
      required := true, min := none, max := none },
    { id := "field", parent := 6, value := "Education".toList, type := "select-one",
      required := true, min := none, max := none },
    { id := "availability", parent := 7, value := "Weekends".toList, type := "select-one",
      required := true, min := none, max := none },
    { id := "experience", parent := 8, value := [], type := "textarea",
      required := false, min := none, max := none },
    { id := "motivation", parent := 9, value := "Helping others".toList, type := "textarea",
      required := true, min := none, max := none },
    { id := "skills", parent := 10, value := [], type := "textarea",
      required := false, min := none, max := none } ]

/-- The values `volunteerDoc` holds. -/
def volunteerDocValues : VolunteerValues :=
  { fullName := "Ahmed".toList, age := "22".toList, phone := "01123".toList, email := [],
    city := "Cairo".toList, field := "Education".toList, availability := "Weekends".toList,
    experience := [], motivation := "Helping others".toList, skills := [] }

/-- The volunteer values of the specification scenario. -/
def sampleVolunteer : VolunteerValues :=
  { fullName := "Ahmed".toList, age := "22".toList, phone := "01012345678".toList, email := [],
    city := "Cairo".toList, field := "Education".toList, availability := "Weekends".toList,
    experience := [], motivation := "Helping others".toList, skills := [] }

/-- Sample contact values with an empty e-mail. -/
def sampleContact : ContactValues :=
  { name := "Mona".toList, phone := "01012345678".toList, email := [],
    subject := "Donation".toList, message := "How can I donate?".toList }

/-! ## Presenter calls and the `input` listener -/

/-- A call of the Error Presenter on a field. -/
inductive PresenterCall where
  | showError (message : Str) : PresenterCall
  | clearError : PresenterCall

/-- The effect of one presenter call on a field. -/
def PresenterCall.run (field : Field) (σ : Dom) : PresenterCall → Dom
  | .showError message => SawaedAlKhair.showError field message σ
  | .clearError => SawaedAlKhair.clearError field σ

/-- The effect of a sequence of presenter calls on a field, first call first. -/
def runCalls (field : Field) (calls : List PresenterCall) (σ : Dom) : Dom :=
  calls.foldl (PresenterCall.run field) σ

/-- The `input` listener `FormValidator.init` adds to every control: it clears
the error of that control and validates nothing. -/
def inputListener (input : Field) (σ : Dom) : Dom :=
  clearError input σ

/-- The `blur` listener `FormValidator.init` adds to every control. -/
def blurListener (input : Field) (σ : Dom) : Dom :=
  (validateField input σ).2

/-- A form of two controls under one parent element: an optional note and a
blank required name. -/
def sharedParentForm : List Field :=
  [ { id := "note", parent := 1, value := "x".toList, type := "text",
      required := false, min := none, max := none },
    { id := "full-name", parent := 1, value := [], type := "text",
      required := true, min := none, max := none } ]

/-- The page `<form><input id=note><div><input id=full-name required></div></form>`:
the form is the element `0`, the `div` inside it the element `1`; no control is
marked and there is no feedback element. -/
def Dom.nested : Dom :=
  { errorClass := fun _ => false, ariaInvalid := fun _ => none,
    encloses := fun a q => a == 0 && q == 1,
    endPos := fun p => if p == 1 then 1 else 2, messages := [] }

/-- The controls of the page `Dom.nested`: an optional note, child of the form,
and a blank required name, child of the `div`. -/
def nestedForm : List Field :=
  [ { id := "note", parent := 0, value := "x".toList, type := "text",
      required := false, min := none, max := none },
    { id := "full-name", parent := 1, value := [], type := "text",
      required := true, min := none, max := none } ]

/-- The elements of the page form a tree: two elements that both contain, or
are, the same element are equal or one lies inside the other. -/
def Dom.TreeShaped (σ : Dom) : Prop :=
  ∀ a b o : Nat, (o = a ∨ σ.encloses a o = true) → (o = b ∨ σ.encloses b o = true) →
    a = b ∨ σ.encloses a b = true ∨ σ.encloses b a = true

/-! ## `FilterTabs`: items, inline styles and deferred callbacks -/

/-- The method `String.prototype.includes`: whether `x` occurs in `s` as a
substring. -/
def includes (s x : Str) : Bool :=
  s.tails.any (fun t => x.isPrefixOf t)

/-- The inline style of an element, as far as `FilterTabs` writes it. -/
structure Style where
  display : Str
  opacity : Str
  transition : Str

/-- An element of `filterableItems`: `id` identifies the element, `status` is
its `data-status` attribute. -/
structure Item where
  id : Nat
  status : Str

/-- A callback passed to `setTimeout` by `fadeIn` or `fadeOut`, with the
element it closes over. -/
inductive Callback where
  | fadeInDone (element : Nat) : Callback
  | fadeOutDone (element : Nat) : Callback

/-- The element a callback writes to. -/
def Callback.target : Callback → Nat
  | .fadeInDone element => element
  | .fadeOutDone element => element

/-- A pending timer: the time in milliseconds at which it is due, and its
callback. -/
structure Timer where
  due : Nat
  callback : Callback

/-- The state `FilterTabs` acts on: the clock, the inline style of every
element, and the pending timers in the order they were set. -/
structure FilterState where
  now : Nat
  style : Nat → Style
  timers : List Timer

/-- An assignment to the inline style of one element. -/
def FilterState.setStyle (s : FilterState) (element : Nat) (f : Style → Style) : FilterState :=
  { s with style := fun i => if i = element then f (s.style i) else s.style i }

/-- The call `setTimeout(callback, delay)`. -/
def FilterState.setTimeout (s : FilterState) (callback : Callback) (delay : Nat) : FilterState :=
  { s with timers := s.timers ++ [{ due := s.now + delay, callback := callback }] }

/-- The method `FilterTabs.fadeIn`. -/
def fadeIn (element : Nat) (s : FilterState) : FilterState :=
  let s₁ := s.setStyle element (fun st => { st with opacity := "0".toList })
  let s₂ := s₁.setStyle element (fun st => { st with display := [] })
  s₂.setTimeout (.fadeInDone element) 10

/-- The method `FilterTabs.fadeOut`. -/
def fadeOut (element : Nat) (s : FilterState) : FilterState :=
  let s₁ := s.setStyle element (fun st => { st with transition := "opacity 0.3s ease".toList })
  let s₂ := s₁.setStyle element (fun st => { st with opacity := "0".toList })
  s₂.setTimeout (.fadeOutDone element) 300

/-- The body of a deferred callback. -/
def Callback.run (s : FilterState) : Callback → FilterState
  | .fadeInDone element =>
      (s.setStyle element (fun st => { st with transition := "opacity 0.3s ease".toList })).setStyle
        element (fun st => { st with opacity := "1".toList })
  | .fadeOutDone element => s.setStyle element (fun st => { st with display := "none".toList })

/-- The body of the `forEach` of `filterItems` for one item. -/
def filterItem (filter : Str) (s : FilterState) (item : Item) : FilterState :=
  let status := item.status
  if filter == "all".toList then
    fadeIn item.id (s.setStyle item.id (fun st => { st with display := [] }))
  else if includes status filter then
    fadeIn item.id (s.setStyle item.id (fun st => { st with display := [] }))
  else
    fadeOut item.id s

/-- The method `FilterTabs.filterItems` over `filterableItems`. -/
def filterItems (filter : Str) (items : List Item) (s : FilterState) : FilterState :=
  items.foldl (filterItem filter) s

/-- The event loop up to time `t`: the timers due by then fire in the order of
their due times, timers due at the same time in the order they were set; the
others stay pending. -/
def advanceTo (t : Nat) (s : FilterState) : FilterState :=
  ((s.timers.filter (fun tm => tm.due ≤ t)).insertionSort (fun a b => a.due ≤ b.due)).foldl
    (fun acc tm => tm.callback.run acc)
    { s with now := max s.now t, timers := s.timers.filter (fun tm => t < tm.due) }

/-- A click on a filter tab at time `t`: the callbacks due by then have run,
then the listener calls `filterItems` with the `data-filter` of the tab.  The
`active` class the listener moves between the tabs is not modelled. -/
def click (items : List Item) (t : Nat) (filter : Str) (s : FilterState) : FilterState :=
  filterItems filter items (advanceTo t s)

/-- An element is visible: it is displayed and fully opaque. -/
def FilterState.visible (s : FilterState) (element : Nat) : Prop :=
  (s.style element).display ≠ "none".toList ∧ (s.style element).opacity = "1".toList

/-- A page with one item of status `completed`, shown, and no pending timer. -/
def FilterState.sample : FilterState :=
  { now := 0
    style := fun _ => { display := [], opacity := "1".toList, transition := [] }
    timers := [] }

/-- The items of the sample page. -/
def sampleItems : List Item := [{ id := 0, status := "completed".toList }]

/-- Whether `filterItems` takes the showing branch for an item. -/
def selects (filter : Str) (item : Item) : Bool :=
  filter == "all".toList || includes item.status filter

/-- What a callback does to the style of its element. -/
def Callback.apply : Callback → Style → Style
  | .fadeInDone _ => fun st =>
      { st with transition := "opacity 0.3s ease".toList, opacity := "1".toList }
  | .fadeOutDone _ => fun st => { st with display := "none".toList }

/-- The timer `filterItems` sets for an item when called at time `now`. -/
def scheduled (filter : Str) (now : Nat) (item : Item) : Timer :=
  if selects filter item then { due := now + 10, callback := .fadeInDone item.id }
  else { due := now + 300, callback := .fadeOutDone item.id }

/-- What `filterItems` does to the style of an item before any timer fires. -/
def immediate (filter : Str) (item : Item) (st : Style) : Style :=
  if selects filter item then { st with display := [], opacity := "0".toList }
  else { st with transition := "opacity 0.3s ease".toList, opacity := "0".toList }

/-! ## Regular expressions: the matcher decides the denotation -/

namespace Regex

theorem nullable_iff (r : Regex) : nullable r = true ↔ Matches r [] := by
  induction r with
  | nothing => simp [nullable, Matches]
  | eps => simp [nullable, Matches]
  | cls p => simp [nullable, Matches]
  | many p => simp [nullable, Matches]
  | alt r s ihr ihs => simp [nullable, Matches, ihr, ihs]
  | seq r s ihr ihs =>
    simp only [nullable, Matches, Bool.and_eq_true, ihr, ihs]
    constructor
    · rintro ⟨hr, hs⟩
      exact ⟨[], [], rfl, hr, hs⟩
    · rintro ⟨u, v, huv, hu, hv⟩
      have h := List.append_eq_nil.1 huv.symm
      rw [h.1] at hu
      rw [h.2] at hv
      exact ⟨hu, hv⟩

theorem deriv_iff (r : Regex) (c : Char) (w : Str) :
    Matches (deriv r c) w ↔ Matches r (c :: w) := by
  induction r generalizing w with
  | nothing => simp [deriv, Matches]
  | eps => simp [deriv, Matches]
  | cls p =>
    by_cases h : p c = true
    · simp only [deriv, h, if_true, Matches]
      constructor
      · rintro rfl; exact ⟨c, h, rfl⟩
      · rintro ⟨d, _, hd⟩
        simp at hd
        exact hd.2
    · simp only [deriv, h, Matches]
      simp only [Bool.false_eq_true, if_false, Matches, false_iff]
      rintro ⟨d, hd, hw⟩
      simp at hw
      exact h (hw.1 ▸ hd)
  | many p =>
    by_cases h : p c = true
    · simp [deriv, h, Matches]
    · simp [deriv, h, Matches]
  | alt r s ihr ihs => simp [deriv, Matches, ihr, ihs]
  | seq r s ihr ihs =>
    have key : (Matches (seq (deriv r c) s) w ∨ (Matches r [] ∧ Matches (deriv s c) w)) ↔
        Matches (seq r s) (c :: w) := by
      simp only [Matches, ihr, ihs]
      constructor
      · rintro (⟨u, v, rfl, hu, hv⟩ | ⟨hr, hs⟩)
        · exact ⟨c :: u, v, rfl, hu, hv⟩
        · exact ⟨[], c :: w, rfl, hr, hs⟩
      · rintro ⟨u, v, huv, hu, hv⟩
        cases u with
        | nil =>
          simp at huv
          subst huv
          exact Or.inr ⟨hu, hv⟩
        | cons d u =>
          simp at huv
          obtain ⟨rfl, rfl⟩ := huv
          exact Or.inl ⟨u, v, rfl, hu, hv⟩
    by_cases hn : nullable r = true
    · have hr : Matches r [] := (nullable_iff r).1 hn
      rw [← key]
      simp [deriv, hn, Matches, hr]
    · have hr : ¬ Matches r [] := fun h => hn ((nullable_iff r).2 h)
      rw [← key]
      simp [deriv, hn, Matches, hr]

/-- The matcher accepts exactly the strings the expression denotes. -/
theorem test_iff (r : Regex) (w : Str) : test r w = true ↔ Matches r w := by
  induction w generalizing r with
  | nil => simpa [test] using nullable_iff r
  | cons c w ih =>
    have := ih (deriv r c)
    simp only [test, List.foldl_cons] at this ⊢
    rw [this, deriv_iff]

theorem matches_some (p : Char → Bool) (w : Str) :
    Matches (some p) w ↔ w ≠ [] ∧ ∀ c ∈ w, p c = true := by
  simp only [some, Matches]
  constructor
  · rintro ⟨u, v, rfl, ⟨c, hc, rfl⟩, hv⟩
    refine ⟨by simp, ?_⟩
    intro d hd
    simp at hd
    rcases hd with rfl | hd
    · exact hc
    · exact hv d hd
  · rintro ⟨hne, hall⟩
    cases w with
    | nil => exact absurd rfl hne
    | cons c w =>
      exact ⟨[c], w, rfl, ⟨c, hall c (by simp), rfl⟩, fun d hd => hall d (by simp [hd])⟩

theorem matches_lit (a : Char) (w : Str) : Matches (lit a) w ↔ w = [a] := by
  simp [lit, Matches]

theorem matches_count (p : Char → Bool) (n : Nat) (w : Str) :
    Matches (count p n) w ↔ w.length = n ∧ ∀ c ∈ w, p c = true := by
  induction n generalizing w with
  | zero => simp [count, Matches]; rintro rfl; simp
  | succ n ih =>
    simp only [count, Matches, ih]
    constructor
    · rintro ⟨u, v, rfl, ⟨c, hc, rfl⟩, hlen, hv⟩
      refine ⟨by simp [hlen], ?_⟩
      intro d hd
      simp at hd
      rcases hd with rfl | hd
      · exact hc
      · exact hv d hd
    · rintro ⟨hlen, hall⟩
      cases w with
      | nil => simp at hlen
      | cons c w =>
        exact ⟨[c], w, rfl, ⟨c, hall c (by simp), rfl⟩, by simpa using hlen,
          fun d hd => hall d (by simp [hd])⟩

end Regex
/-! ## `validateField`: the required rule -/

theorem trim_eq_nil_of_blank {s : Str} (h : ∀ c ∈ s, isWhiteSpace c = true) : trim s = [] := by
  have h1 : s.dropWhile isWhiteSpace = [] := List.dropWhile_eq_nil_iff.2 h
  simp [trim, h1]

theorem filter_eraseP_self (found : Feedback → Bool) (l : List Feedback) :
    (l.eraseP found).filter found = (l.filter found).tail := by
  induction l with
  | nil => rfl
  | cons x l ih =>
    by_cases hx : found x = true
    · simp [List.eraseP_cons, List.filter_cons, hx]
    · simp [List.eraseP_cons, List.filter_cons, hx, ih]

theorem filter_setFirstText (found : Feedback → Bool) (m : Str) (l : List Feedback)
    (hfound : ∀ (x : Feedback) (t : Str), found { x with text := t } = found x) :
    (setFirstText found m l).filter found =
      match l.filter found with
      | [] => []
      | y :: rest => { y with text := m } :: rest := by
  induction l with
  | nil => rfl
  | cons x l ih =>
    by_cases hx : found x = true
    · simp [setFirstText, List.filter_cons, hx, hfound]
    · simp [setFirstText, List.filter_cons, hx, ih]

theorem filter_placeMessage (found : Feedback → Bool) (x : Feedback) (l : List Feedback)
    (hl : l.filter found = []) (hx : found x = true) :
    (placeMessage x l).filter found = [x] := by
  have hsplit := List.takeWhile_append_dropWhile (fun y => decide (y.pos ≤ x.pos)) l
  have h := hl
  rw [← hsplit, List.filter_append, List.append_eq_nil] at h
  simp [placeMessage, List.filter_append, List.filter_cons, h.1, h.2, hx]

theorem Dom.below_text (σ : Dom) (p : Nat) (x : Feedback) (t : Str) :
    σ.below p { x with text := t } = σ.below p x := rfl

theorem feedback_clearError_self (field : Field) (σ : Dom) :
    (clearError field σ).feedback field.parent = (σ.feedback field.parent).tail := by
  show ((σ.messages.eraseP (σ.below field.parent)).filter (σ.below field.parent)).map
    (fun x => x.text) = _
  rw [filter_eraseP_self, Dom.feedback, List.map_tail]

theorem feedback_showError_self (field : Field) (m : Str) (σ : Dom) :
    (showError field m σ).feedback field.parent =
      match σ.feedback field.parent with
      | [] => [m]
      | _ :: rest => m :: rest := by
  cases hfind : σ.messages.find? (σ.below field.parent) with
  | none =>
    have hnil : σ.messages.filter (σ.below field.parent) = [] := by
      rw [List.filter_eq_nil_iff]
      intro a ha
      exact List.find?_eq_none.1 hfind a ha
    have h1 : (showError field m σ).feedback field.parent =
        ((placeMessage { pos := σ.endPos field.parent, owner := field.parent, text := m }
          σ.messages).filter (σ.below field.parent)).map (fun x => x.text) := by
      simp only [Dom.feedback, showError, hfind]
      rfl
    rw [h1, filter_placeMessage _ _ _ hnil (by simp [Dom.below])]
    simp [Dom.feedback, hnil]
  | some y =>
    have h1 : (showError field m σ).feedback field.parent =
        ((setFirstText (σ.below field.parent) m σ.messages).filter
          (σ.below field.parent)).map (fun x => x.text) := by
      simp only [Dom.feedback, showError, hfind]
      rfl
    rw [h1, filter_setFirstText _ _ _ (Dom.below_text σ field.parent)]
    have hne : σ.messages.filter (σ.below field.parent) ≠ [] := by
      intro hnil
      rw [List.filter_eq_nil_iff] at hnil
      have := List.find?_some hfind
      exact hnil y (List.mem_of_find?_eq_some hfind) this
    simp only [Dom.feedback]
    cases hf : σ.messages.filter (σ.below field.parent) with
    | nil => exact absurd hf hne
    | cons z rest => simp

theorem shownMessage_showError (field : Field) (m : Str) (σ : Dom) :
    shownMessage field (showError field m σ) = Option.some m := by
  unfold shownMessage
  rw [feedback_showError_self]
  cases σ.feedback field.parent <;> rfl

theorem validateField_fst (field : Field) (σ : Dom) :
    (validateField field σ).1 = (fieldVerdict field).1 := by
  simp only [validateField]
  split <;> rfl

theorem validateField_invalid (field : Field) (σ : Dom) (h : (fieldVerdict field).1 = false) :
    (validateField field σ).2 = showError field (fieldVerdict field).2 (clearError field σ) := by
  simp [validateField, h]

theorem validateField_valid (field : Field) (σ : Dom) (h : (fieldVerdict field).1 = true) :
    (validateField field σ).2 = clearError field σ := by
  simp [validateField, h]

/-- C1: a required field whose value is empty or white space only is invalid,
whatever its type and its min/max attributes; the message handed to `showError`
and displayed is the required-field message, which differs from every
type-specific message. -/
theorem validateField_required_blank (field : Field) (σ : Dom)
    (hreq : field.required = true) (hblank : ∀ c ∈ field.value, isWhiteSpace c = true) :
    (validateField field σ).1 = false ∧
    (validateField field σ).2 = showError field msgRequired (clearError field σ) ∧
    shownMessage field (validateField field σ).2 = Option.some msgRequired ∧
    msgRequired = "هذا الحقل مطلوب".toList ∧
    msgRequired ≠ msgEmail ∧ msgRequired ≠ msgPhone ∧
    (∀ lo, msgRequired ≠ msgMin lo) ∧ (∀ hi, msgRequired ≠ msgMax hi) := by
  have hv : fieldVerdict field = (false, msgRequired) := by
    simp [fieldVerdict, hreq, trim_eq_nil_of_blank hblank]
  have h1 : (fieldVerdict field).1 = false := by rw [hv]
  refine ⟨by rw [validateField_fst, h1], ?_, ?_, rfl, by decide, by decide, ?_, ?_⟩
  · rw [validateField_invalid field σ h1, hv]
  · rw [validateField_invalid field σ h1, hv, shownMessage_showError]
  · intro lo h
    simp [msgRequired, msgMin] at h
  · intro hi h
    simp [msgRequired, msgMax] at h

/-- Witness for C1: a required e-mail field holding two spaces and a tab. -/
theorem validateField_required_blank_witness :
    (validateField
      { id := "email", parent := 0, value := [' ', ' ', '\t'], type := "email",
        required := true, min := none, max := none }
      Dom.empty).1
      = false :=
  (validateField_required_blank _ _ rfl (by decide)).1

/-- C2: a field without the required attribute whose value is empty (or white
space only) is valid for every type and every min/max; `showError` is not
called, so the field ends without the error class and without `aria-invalid`. -/
theorem validateField_optional_empty (field : Field) (σ : Dom)
    (hreq : field.required = false) (hempty : ∀ c ∈ field.value, isWhiteSpace c = true) :
    (validateField field σ).1 = true ∧
    (validateField field σ).2 = clearError field σ ∧
    (validateField field σ).2.errorClass field.id = false ∧
    (validateField field σ).2.ariaInvalid field.id = none := by
  have hv : fieldVerdict field = (true, []) := by
    simp [fieldVerdict, hreq, trim_eq_nil_of_blank hempty]
  have h1 : (fieldVerdict field).1 = true := by rw [hv]
  have h2 := validateField_valid field σ h1
  refine ⟨by rw [validateField_fst, h1], h2, ?_, ?_⟩
  · rw [h2]; simp [clearError]
  · rw [h2]; simp [clearError]

/-- Witness for C2: an optional number field with bounds and an empty value. -/
theorem validateField_optional_empty_witness :
    (validateField
      { id := "age", parent := 0, value := [], type := "number",
        required := false, min := Option.some ['1', '0'], max := Option.some ['9'] }
      { Dom.empty with errorClass := fun _ => true }).1
      = true :=
  (validateField_optional_empty _ _ rfl (by decide)).1

/-! ## `validateField`: the e-mail rule -/

theorem notSpaceNotAt_iff (c : Char) :
    notSpaceNotAt c = true ↔ isWhiteSpace c = false ∧ c ≠ '@' := by
  simp [notSpaceNotAt]

theorem Regex.matches_seq (r s : Regex) (w : Str) :
    Regex.Matches (.seq r s) w ↔ ∃ u v, w = u ++ v ∧ Regex.Matches r u ∧ Regex.Matches s v :=
  Iff.rfl

theorem emailRegex_test_iff (v : Str) : emailRegex.test v = true ↔ EmailShape v := by
  rw [Regex.test_iff]
  simp only [emailRegex, Regex.matches_seq, Regex.matches_some, Regex.matches_lit,
    notSpaceNotAt_iff, EmailShape]
  constructor
  · rintro ⟨a, _, rfl, ⟨ha, ha'⟩, _, _, rfl, rfl, b, _, rfl, ⟨hb, hb'⟩, _, c, rfl, rfl, hc, hc'⟩
    exact ⟨a, b, c, by simp, ha, ha', hb, hb', hc, hc'⟩
  · rintro ⟨a, b, c, rfl, ha, ha', hb, hb', hc, hc'⟩
    exact ⟨a, _, by simp, ⟨ha, ha'⟩, _, _, rfl, rfl, b, _, rfl, ⟨hb, hb'⟩, _, c, rfl, rfl, hc, hc'⟩

theorem fieldVerdict_email (field : Field) (htype : field.type = "email")
    (hne : trim field.value ≠ []) :
    fieldVerdict field =
      if emailRegex.test (trim field.value) then (true, []) else (false, msgEmail) := by
  simp [fieldVerdict, htype, hne]
  split <;> simp_all

/-- Counterexample to C3 as stated: `a@b.c@d` has the stated shape (its last
run `c@d` is free of white space) and the field is invalid. -/
theorem validateField_email_spec_shape_counterexample :
    ¬ ((validateField
        { id := "email", parent := 0, value := "a@b.c@d".toList, type := "email",
          required := false, min := none, max := none } Dom.empty).1 = true ↔
      SpecEmailShape (trim "a@b.c@d".toList)) := by
  intro h
  have hs : SpecEmailShape (trim "a@b.c@d".toList) :=
    ⟨['a'], ['b'], ['c', '@', 'd'], by decide, by decide, by decide, by decide, by decide,
      by decide, by decide⟩
  have := h.2 hs
  revert this
  decide

/-- C3, amended: on an e-mail field with a non-empty trimmed value the result
is valid exactly when the value is a run free of white space and `@`, an `@`,
a second such run, a `.`, and a third run free of white space and `@`;
otherwise the invalid-email message is shown. `a@b.c` is valid, `a@b` and
`a.com` are invalid. -/
theorem validateField_email (field : Field) (σ : Dom) (htype : field.type = "email")
    (hne : trim field.value ≠ []) :
    ((validateField field σ).1 = true ↔ EmailShape (trim field.value)) ∧
    ((validateField field σ).1 = false →
      (validateField field σ).2 = showError field msgEmail (clearError field σ) ∧
      shownMessage field (validateField field σ).2 = Option.some msgEmail) ∧
    (validateField { field with value := "a@b.c".toList } σ).1 = true ∧
    (validateField { field with value := "a@b".toList } σ).1 = false ∧
    (validateField { field with value := "a.com".toList } σ).1 = false := by
  have hv := fieldVerdict_email field htype hne
  have ex : ∀ w : Str, trim w ≠ [] →
      (validateField { field with value := w } σ).1 = emailRegex.test (trim w) := by
    intro w hw
    rw [validateField_fst, fieldVerdict_email { field with value := w } htype hw]
    split <;> simp_all
  refine ⟨?_, ?_, ?_, ?_, ?_⟩
  · rw [validateField_fst, hv, ← emailRegex_test_iff]
    split <;> simp_all
  · intro hf
    rw [validateField_fst] at hf
    have hm : (fieldVerdict field).2 = msgEmail := by
      rw [hv] at hf ⊢
      split <;> simp_all
    rw [validateField_invalid field σ hf, hm, shownMessage_showError]
    exact ⟨rfl, rfl⟩
  · rw [ex _ (by decide)]; decide
  · rw [ex _ (by decide)]; decide
  · rw [ex _ (by decide)]; decide

/-- Witness for C3: the field holding `a@b.c`. -/
theorem validateField_email_witness :
    (validateField
      { id := "email", parent := 0, value := "a@b.c".toList, type := "email",
        required := true, min := none, max := none } Dom.empty).1 = true ↔
    EmailShape (trim "a@b.c".toList) :=
  (validateField_email _ Dom.empty rfl (by decide)).1

/-! ## `validateField`: the phone rule -/

theorem phoneRegex_test_iff (s : Str) : phoneRegex.test s = true ↔ PhoneShape s := by
  rw [Regex.test_iff]
  simp only [phoneRegex, Regex.matches_seq, Regex.matches_count, Regex.matches_lit, PhoneShape]
  constructor
  · rintro ⟨_, _, rfl, rfl, _, d, rfl, rfl, hlen, hd⟩
    refine ⟨by simp [hlen], ?_, by simp⟩
    intro c hc
    simp at hc
    rcases hc with rfl | rfl | hc
    · decide
    · decide
    · exact hd c hc
  · rintro ⟨hlen, hd, htake⟩
    match s, hlen, hd, htake with
    | c₀ :: c₁ :: d, hlen, hd, htake =>
      simp at htake
      obtain ⟨rfl, rfl⟩ := htake
      exact ⟨_, _, rfl, rfl, _, d, rfl, rfl, by simpa using hlen,
        fun c hc => hd c (by simp [hc])⟩

theorem filter_dropWhile_not (p : Char → Bool) (l : Str) :
    (l.dropWhile p).filter (fun c => !p c) = l.filter (fun c => !p c) := by
  induction l with
  | nil => rfl
  | cons a l ih =>
    by_cases h : p a = true
    · simp [List.dropWhile_cons, h, ih]
    · simp [List.dropWhile_cons, h]

theorem stripWhiteSpace_trim (x : Str) : stripWhiteSpace (trim x) = stripWhiteSpace x := by
  unfold stripWhiteSpace trim
  rw [List.filter_reverse, filter_dropWhile_not, List.filter_reverse, List.reverse_reverse,
    filter_dropWhile_not]

theorem stripWhiteSpace_eq_nil_iff (x : Str) :
    stripWhiteSpace x = [] ↔ ∀ c ∈ x, isWhiteSpace c = true := by
  simp [stripWhiteSpace, List.filter_eq_nil_iff]

theorem trim_eq_nil_iff (x : Str) : trim x = [] ↔ stripWhiteSpace x = [] := by
  constructor
  · intro h
    rw [← stripWhiteSpace_trim, h]
    rfl
  · intro h
    exact trim_eq_nil_of_blank ((stripWhiteSpace_eq_nil_iff x).1 h)

theorem stripWhiteSpace_insert (a s b : Str) (hs : ∀ c ∈ s, isWhiteSpace c = true) :
    stripWhiteSpace (a ++ s ++ b) = stripWhiteSpace (a ++ b) := by
  have : stripWhiteSpace s = [] := (stripWhiteSpace_eq_nil_iff s).2 hs
  unfold stripWhiteSpace at this ⊢
  simp [List.filter_append, this]

theorem fieldVerdict_tel (field : Field) (htype : field.type = "tel") :
    (fieldVerdict field).1 =
      if stripWhiteSpace field.value = [] then !field.required
      else phoneRegex.test (stripWhiteSpace field.value) := by
  by_cases he : stripWhiteSpace field.value = []
  · have ht : trim field.value = [] := (trim_eq_nil_iff _).2 he
    cases hr : field.required <;> simp [fieldVerdict, htype, ht, he, hr]
  · have ht : trim field.value ≠ [] := fun h => he ((trim_eq_nil_iff _).1 h)
    simp only [fieldVerdict, htype, stripWhiteSpace_trim, he, if_false]
    simp [ht]
    split <;> simp_all

theorem fieldVerdict_tel_snd (field : Field) (htype : field.type = "tel")
    (hne : trim field.value ≠ []) (hf : (fieldVerdict field).1 = false) :
    (fieldVerdict field).2 = msgPhone := by
  revert hf
  simp only [fieldVerdict, htype]
  simp [hne]
  split <;> simp_all

/-- C4: on a phone field with a non-empty trimmed value the result is valid
exactly when the value without its white space is eleven decimal digits
starting with `01`; otherwise the invalid-phone message is shown.
`01012345678` is valid, `01123` and `02012345678` are invalid, and inserting
white space anywhere in the value does not change the result. -/
theorem validateField_tel (field : Field) (σ : Dom) (htype : field.type = "tel")
    (hne : trim field.value ≠ []) :
    ((validateField field σ).1 = true ↔ PhoneShape (stripWhiteSpace (trim field.value))) ∧
    ((validateField field σ).1 = false →
      (validateField field σ).2 = showError field msgPhone (clearError field σ) ∧
      shownMessage field (validateField field σ).2 = Option.some msgPhone) ∧
    (validateField { field with value := "01012345678".toList } σ).1 = true ∧
    (validateField { field with value := "01123".toList } σ).1 = false ∧
    (validateField { field with value := "02012345678".toList } σ).1 = false ∧
    (∀ a s b : Str, field.value = a ++ b → (∀ c ∈ s, isWhiteSpace c = true) →
      (validateField { field with value := a ++ s ++ b } σ).1 = (validateField field σ).1) := by
  have hs : stripWhiteSpace field.value ≠ [] := fun h => hne ((trim_eq_nil_iff _).2 h)
  have ex : ∀ w : Str, stripWhiteSpace w ≠ [] →
      (validateField { field with value := w } σ).1 = phoneRegex.test (stripWhiteSpace w) := by
    intro w hw
    rw [validateField_fst, fieldVerdict_tel { field with value := w } htype]
    simp [hw]
  refine ⟨?_, ?_, ?_, ?_, ?_, ?_⟩
  · rw [validateField_fst, fieldVerdict_tel field htype, stripWhiteSpace_trim,
      ← phoneRegex_test_iff]
    simp [hs]
  · intro hf
    rw [validateField_fst] at hf
    rw [validateField_invalid field σ hf, fieldVerdict_tel_snd field htype hne hf,
      shownMessage_showError]
    exact ⟨rfl, rfl⟩
  · rw [ex _ (by decide)]; decide
  · rw [ex _ (by decide)]; decide
  · rw [ex _ (by decide)]; decide
  · intro a s b hab hsp
    rw [validateField_fst, validateField_fst, fieldVerdict_tel { field with value := a ++ s ++ b } htype,
      fieldVerdict_tel field htype]
    simp only [stripWhiteSpace_insert a s b hsp, hab]

/-- Witness for C4: the field holding `010 1234 5678`. -/
theorem validateField_tel_witness :
    (validateField
      { id := "phone", parent := 0, value := "010 1234 5678".toList, type := "tel",
        required := true, min := none, max := none } Dom.empty).1 = true ↔
    PhoneShape (stripWhiteSpace (trim "010 1234 5678".toList)) :=
  (validateField_tel _ Dom.empty rfl (by decide)).1

/-! ## `validateField`: the number rule -/

theorem two_zpow_toNat (e : Int) (h : 0 ≤ e) : ((2 : ℚ) ^ e.toNat) = (2 : ℚ) ^ e := by
  rw [← zpow_natCast, Int.toNat_of_nonneg h]

theorem Num.toInt_val {m e n : Int} (h : (Num.fin m e).toInt? = Option.some n) :
    (n : ℚ) = m * (2 : ℚ) ^ e := by
  simp only [Num.toInt?] at h
  by_cases he : 0 ≤ e
  · rw [if_pos he, Option.some.injEq] at h
    rw [← h]
    push_cast
    rw [two_zpow_toNat e he]
  · rw [if_neg he] at h
    by_cases hdiv : m % 2 ^ (-e).toNat = 0
    · rw [if_pos hdiv, Option.some.injEq] at h
      have hm : m = n * 2 ^ (-e).toNat := by
        rw [← h]
        exact (Int.ediv_mul_cancel (Int.dvd_of_emod_eq_zero hdiv)).symm
      have hne : (0 : Int) ≤ -e := by omega
      rw [hm]
      push_cast
      rw [two_zpow_toNat (-e) hne, mul_assoc, ← zpow_add₀ (by norm_num : (2 : ℚ) ≠ 0)]
      simp
    · rw [if_neg hdiv] at h
      exact absurd h (by simp)

theorem Num.scaled_val (m e k : Int) (h : k ≤ e) :
    (((m * 2 ^ (e - k).toNat : Int)) : ℚ) = m * (2 : ℚ) ^ e * ((2 : ℚ) ^ k)⁻¹ := by
  push_cast
  rw [two_zpow_toNat (e - k) (by omega), zpow_sub₀ (by norm_num : (2 : ℚ) ≠ 0), div_eq_mul_inv,
    mul_assoc]

theorem Num.lt_of_toInt {x y : Num} {n k : Int} (hx : x.toInt? = Option.some n)
    (hy : y.toInt? = Option.some k) : Num.lt x y = decide (n < k) := by
  cases x with
  | fin m e =>
    cases y with
    | fin m' e' =>
      have h1 := Num.toInt_val hx
      have h2 := Num.toInt_val hy
      have h3 := Num.scaled_val m e (min e e') (min_le_left _ _)
      have h4 := Num.scaled_val m' e' (min e e') (min_le_right _ _)
      have hpos : (0 : ℚ) < ((2 : ℚ) ^ (min e e'))⁻¹ := by positivity
      simp only [Num.lt]
      congr 1
      rw [eq_iff_iff, ← Int.cast_lt (R := ℚ), h3, h4, ← h1, ← h2, mul_lt_mul_right hpos,
        Int.cast_lt]
    | nan => simp [Num.toInt?] at hy
    | negInf => simp [Num.toInt?] at hy
    | posInf => simp [Num.toInt?] at hy
  | nan => simp [Num.toInt?] at hx
  | negInf => simp [Num.toInt?] at hx
  | posInf => simp [Num.toInt?] at hx

theorem parseFloat_nil : parseFloat [] = Num.nan := by decide

theorem fieldVerdict_number (field : Field) (htype : field.type = "number")
    (hne : trim field.value ≠ []) :
    fieldVerdict field = numberVerdict field.min field.max (trim field.value) := by
  have h1 : ("number" == "email") = false := by decide
  have h2 : ("number" == "tel") = false := by decide
  simp [fieldVerdict, htype, hne, h1, h2]

theorem numberVerdict_int (a b value : Str) (n lo hi : Int)
    (hn : (parseFloat value).toInt? = Option.some n)
    (hlo : (parseFloat a).toInt? = Option.some lo)
    (hhi : (parseFloat b).toInt? = Option.some hi) :
    numberVerdict (Option.some a) (Option.some b) value =
      if hi < n then (false, msgMax b)
      else if n < lo then (false, msgMin a) else (true, []) := by
  have ha : a ≠ [] := by
    rintro rfl
    rw [parseFloat_nil] at hlo
    simp [Num.toInt?] at hlo
  have hb : b ≠ [] := by
    rintro rfl
    rw [parseFloat_nil] at hhi
    simp [Num.toInt?] at hhi
  simp only [numberVerdict, Num.lt_of_toInt hn hlo, Num.lt_of_toInt hhi hn]
  simp [ha, hb]

theorem numberVerdict_fifty :
    numberVerdict (Option.some "10".toList) (Option.some "100".toList) (trim "50".toList) =
      (true, []) := by
  decide

theorem msgMax_ne_msgMin (a b : Str) : msgMax b ≠ msgMin a := by
  intro h
  have h' := congrArg (fun l => l.reverse.head?) h
  simp [msgMax, msgMin] at h'

/-- C5: on a number field with a non-empty value parsing to the integer `n`,
with `min` parsing to `lo` and `max` to `hi` (the numbers `parseFloat` returns,
after rounding to binary64), `lo ≤ hi`: below `lo` the field is
invalid with the at-least message built from the `min` text, above `hi` it is
invalid with the at-most message built from the `max` text, and in between it
is valid.  With `min=10`, `max=100`: `5` gives the minimum message, `150` the
maximum message, `50` is valid.  An absent bound is not checked. -/
theorem validateField_number (field : Field) (σ : Dom) (htype : field.type = "number")
    (hne : trim field.value ≠ []) :
    (∀ (n lo hi : Int) (a b : Str), field.min = Option.some a → field.max = Option.some b →
      (parseFloat (trim field.value)).toInt? = Option.some n →
      (parseFloat a).toInt? = Option.some lo →
      (parseFloat b).toInt? = Option.some hi → lo ≤ hi →
      (n < lo → (validateField field σ).1 = false ∧
        (validateField field σ).2 = showError field (msgMin a) (clearError field σ) ∧
        shownMessage field (validateField field σ).2 = Option.some (msgMin a)) ∧
      (hi < n → (validateField field σ).1 = false ∧
        (validateField field σ).2 = showError field (msgMax b) (clearError field σ) ∧
        shownMessage field (validateField field σ).2 = Option.some (msgMax b)) ∧
      (lo ≤ n → n ≤ hi → (validateField field σ).1 = true)) ∧
    (∀ f5 : Field, f5 = { field with value := "5".toList, min := Option.some "10".toList,
                                     max := Option.some "100".toList } →
      (validateField f5 σ).1 = false ∧
      shownMessage f5 (validateField f5 σ).2 = Option.some (msgMin "10".toList)) ∧
    (∀ f150 : Field, f150 = { field with value := "150".toList, min := Option.some "10".toList,
                                         max := Option.some "100".toList } →
      (validateField f150 σ).1 = false ∧
      shownMessage f150 (validateField f150 σ).2 = Option.some (msgMax "100".toList)) ∧
    (∀ f50 : Field, f50 = { field with value := "50".toList, min := Option.some "10".toList,
                                       max := Option.some "100".toList } →
      (validateField f50 σ).1 = true) ∧
    (field.min = none → field.max = none → (validateField field σ).1 = true) ∧
    (field.min = none → ∀ b, field.max = Option.some b →
      ((validateField field σ).1 = true ↔
        ¬ (b ≠ [] ∧ (parseFloat b).lt (parseFloat (trim field.value)) = true))) ∧
    (field.max = none → ∀ a, field.min = Option.some a →
      ((validateField field σ).1 = true ↔
        ¬ (a ≠ [] ∧ (parseFloat (trim field.value)).lt (parseFloat a) = true))) := by
  have hv := fieldVerdict_number field htype hne
  have ex : ∀ (g : Field) (m : Str), g.type = "number" → trim g.value ≠ [] →
      numberVerdict g.min g.max (trim g.value) = (false, m) →
      (validateField g σ).1 = false ∧ shownMessage g (validateField g σ).2 = Option.some m := by
    intro g m hg hgne hnv
    have hv' := fieldVerdict_number g hg hgne
    rw [hnv] at hv'
    have hf : (fieldVerdict g).1 = false := by rw [hv']
    rw [validateField_fst, validateField_invalid g σ hf, hv', shownMessage_showError]
    exact ⟨rfl, rfl⟩
  have exv : ∀ g : Field, g.type = "number" → trim g.value ≠ [] →
      (numberVerdict g.min g.max (trim g.value)).1 = true → (validateField g σ).1 = true := by
    intro g hg hgne hnv
    rw [validateField_fst, fieldVerdict_number g hg hgne, hnv]
  refine ⟨?_, ?_, ?_, ?_, ?_, ?_, ?_⟩
  · intro n lo hi a b hmin hmax hn hlo hhi hle
    have hnv := numberVerdict_int a b (trim field.value) n lo hi hn hlo hhi
    rw [hmin, hmax] at hv
    rw [hnv] at hv
    refine ⟨?_, ?_, ?_⟩
    · intro hlt
      have h1 : ¬ hi < n := by omega
      have hv' : fieldVerdict field = (false, msgMin a) := by simpa [h1, hlt] using hv
      have hf : (fieldVerdict field).1 = false := by rw [hv']
      rw [validateField_fst, validateField_invalid field σ hf, hv', shownMessage_showError]
      exact ⟨rfl, rfl, rfl⟩
    · intro hgt
      have hv' : fieldVerdict field = (false, msgMax b) := by simpa [hgt] using hv
      have hf : (fieldVerdict field).1 = false := by rw [hv']
      rw [validateField_fst, validateField_invalid field σ hf, hv', shownMessage_showError]
      exact ⟨rfl, rfl, rfl⟩
    · intro h1 h2
      have h1' : ¬ n < lo := by omega
      have h2' : ¬ hi < n := by omega
      rw [validateField_fst, hv]
      simp [h1', h2']
  · rintro f5 rfl
    exact ex _ _ htype (show trim "5".toList ≠ [] by decide)
      (show numberVerdict (Option.some "10".toList) (Option.some "100".toList)
        (trim "5".toList) = _ by decide)
  · rintro f150 rfl
    exact ex _ _ htype (show trim "150".toList ≠ [] by decide)
      (show numberVerdict (Option.some "10".toList) (Option.some "100".toList)
        (trim "150".toList) = _ by decide)
  · rintro f50 rfl
    exact exv _ htype (show trim "50".toList ≠ [] by decide)
      (show (numberVerdict (Option.some "10".toList) (Option.some "100".toList)
        (trim "50".toList)).1 = true by rw [numberVerdict_fifty])
  · intro hmin hmax
    rw [validateField_fst, hv, hmin, hmax]
    rfl
  · intro hmin b hmax
    rw [validateField_fst, hv, hmin, hmax]
    simp only [numberVerdict]
    split <;> simp_all
  · intro hmax a hmin
    rw [validateField_fst, hv, hmin, hmax]
    simp only [numberVerdict]
    split <;> simp_all

/-- Witness for C5: an age field with `min=10`, `max=100` holding `7`. -/
theorem validateField_number_witness :
    (validateField
      { id := "age", parent := 0, value := "7".toList, type := "number", required := true,
        min := Option.some "10".toList, max := Option.some "100".toList } Dom.empty).1 = false :=
  (((validateField_number
      { id := "age", parent := 0, value := "7".toList, type := "number", required := true,
        min := Option.some "10".toList, max := Option.some "100".toList } Dom.empty rfl
      (by decide)).1 7 10 100 "10".toList "100".toList rfl rfl (by decide) (by decide)
      (by decide) (by decide)).1 (by decide)).1

/-- Counterexample to C6 as stated: with `min=100`, `max=10` the value `50`
violates both bounds and the message shown is not the minimum message. -/
theorem validateField_both_bounds_counterexample :
    shownMessage
      { id := "age", parent := 0, value := "50".toList, type := "number", required := false,
        min := Option.some "100".toList, max := Option.some "10".toList }
      (validateField
        { id := "age", parent := 0, value := "50".toList, type := "number", required := false,
          min := Option.some "100".toList, max := Option.some "10".toList } Dom.empty).2
      ≠ Option.some (msgMin "100".toList) := by
  decide

/-- C6, amended: on a number field whose value, as parsed, is below the
declared minimum and above the declared maximum, the second check assigns last, so the message
handed to `showError` and displayed is the maximum message, which is never the
minimum message; such a value exists only when the maximum is below the
minimum. -/
theorem validateField_both_bounds (field : Field) (σ : Dom) (n lo hi : Int) (a b : Str)
    (htype : field.type = "number") (hne : trim field.value ≠ [])
    (hmin : field.min = Option.some a) (hmax : field.max = Option.some b)
    (hn : (parseFloat (trim field.value)).toInt? = Option.some n)
    (hlo : (parseFloat a).toInt? = Option.some lo)
    (hhi : (parseFloat b).toInt? = Option.some hi) (hbelow : n < lo) (habove : hi < n) :
    (validateField field σ).1 = false ∧
    (validateField field σ).2 = showError field (msgMax b) (clearError field σ) ∧
    shownMessage field (validateField field σ).2 = Option.some (msgMax b) ∧
    msgMax b ≠ msgMin a ∧ hi < lo := by
  have hv := fieldVerdict_number field htype hne
  rw [hmin, hmax, numberVerdict_int a b (trim field.value) n lo hi hn hlo hhi] at hv
  have hv' : fieldVerdict field = (false, msgMax b) := by simpa [habove] using hv
  have hf : (fieldVerdict field).1 = false := by rw [hv']
  rw [validateField_fst, validateField_invalid field σ hf, hv', shownMessage_showError]
  exact ⟨rfl, rfl, rfl, msgMax_ne_msgMin a b, by omega⟩

/-- Witness for C6: `min=100`, `max=10`, value `50`. -/
theorem validateField_both_bounds_witness :
    shownMessage
      { id := "age", parent := 0, value := "50".toList, type := "number", required := false,
        min := Option.some "100".toList, max := Option.some "10".toList }
      (validateField
        { id := "age", parent := 0, value := "50".toList, type := "number", required := false,
          min := Option.some "100".toList, max := Option.some "10".toList } Dom.empty).2
      = Option.some (msgMax "10".toList) :=
  (validateField_both_bounds _ Dom.empty 50 100 10 "100".toList "10".toList rfl (by decide)
    rfl rfl (by decide) (by decide) (by decide) (by decide) (by decide)).2.2.1

/-- The comparisons are made on the rounded numbers: `9007199254740993` parses
to `9007199254740992`, so with `max=9007199254740992` it is valid, and with
`min=9007199254740994`, `max=9007199254740992` only the minimum check fires. -/
theorem numberVerdict_rounds :
    (parseFloat "9007199254740993".toList).toInt? = Option.some 9007199254740992 ∧
    numberVerdict (Option.some "0".toList) (Option.some "9007199254740992".toList)
      "9007199254740993".toList = (true, []) ∧
    numberVerdict (Option.some "9007199254740994".toList)
      (Option.some "9007199254740992".toList) "9007199254740993".toList =
      (false, msgMin "9007199254740994".toList) := by
  decide

/-! ## `validateForm` -/

theorem validateField_errorClass_self (f : Field) (σ : Dom) :
    (validateField f σ).2.errorClass f.id = !(fieldVerdict f).1 := by
  cases h : (fieldVerdict f).1
  · rw [validateField_invalid f σ h]; simp [showError]
  · rw [validateField_valid f σ h]; simp [clearError]

theorem validateField_ariaInvalid_self (f : Field) (σ : Dom) :
    (validateField f σ).2.ariaInvalid f.id =
      if (fieldVerdict f).1 then none else Option.some "true".toList := by
  cases h : (fieldVerdict f).1
  · rw [validateField_invalid f σ h]; simp [showError]
  · rw [validateField_valid f σ h]; simp [clearError]

theorem validateField_errorClass_other (f : Field) (σ : Dom) (i : String) (hi : i ≠ f.id) :
    (validateField f σ).2.errorClass i = σ.errorClass i := by
  cases h : (fieldVerdict f).1
  · rw [validateField_invalid f σ h]; simp [showError, clearError, hi]
  · rw [validateField_valid f σ h]; simp [clearError, hi]

theorem validateField_ariaInvalid_other (f : Field) (σ : Dom) (i : String) (hi : i ≠ f.id) :
    (validateField f σ).2.ariaInvalid i = σ.ariaInvalid i := by
  cases h : (fieldVerdict f).1
  · rw [validateField_invalid f σ h]; simp [showError, clearError, hi]
  · rw [validateField_valid f σ h]; simp [clearError, hi]

theorem validateForm_foldl (l : List Field) (acc : Bool × Dom) :
    l.foldl
      (fun (acc : Bool × Dom) input =>
        let r := validateField input acc.2
        if !r.1 then (false, r.2) else (acc.1, r.2))
      acc =
    (acc.1 && l.all (fun f => (fieldVerdict f).1),
      l.foldl (fun τ f => (validateField f τ).2) acc.2) := by
  induction l generalizing acc with
  | nil => simp
  | cons f l ih =>
    rw [List.foldl_cons, ih, List.foldl_cons, List.all_cons]
    cases h : (fieldVerdict f).1 <;> simp [validateField_fst, h]

theorem foldl_validateField_other (l : List Field) (σ : Dom) (i : String)
    (hi : ∀ f ∈ l, i ≠ f.id) :
    (l.foldl (fun τ f => (validateField f τ).2) σ).errorClass i = σ.errorClass i ∧
    (l.foldl (fun τ f => (validateField f τ).2) σ).ariaInvalid i = σ.ariaInvalid i := by
  induction l generalizing σ with
  | nil => simp
  | cons f l ih =>
    simp only [List.foldl_cons]
    have h1 := ih (validateField f σ).2 (fun g hg => hi g (by simp [hg]))
    have h2 : i ≠ f.id := hi f (by simp)
    rw [h1.1, h1.2, validateField_errorClass_other f σ i h2,
      validateField_ariaInvalid_other f σ i h2]
    exact ⟨rfl, rfl⟩

theorem foldl_validateField_self (l : List Field) (σ : Dom) (hnd : (l.map (fun f => f.id)).Nodup)
    (f : Field) (hf : f ∈ l) :
    (l.foldl (fun τ f => (validateField f τ).2) σ).errorClass f.id = !(fieldVerdict f).1 ∧
    (l.foldl (fun τ f => (validateField f τ).2) σ).ariaInvalid f.id =
      if (fieldVerdict f).1 then none else Option.some "true".toList := by
  induction l generalizing σ with
  | nil => simp at hf
  | cons g l ih =>
    simp only [List.map_cons, List.nodup_cons] at hnd
    simp only [List.foldl_cons]
    rcases List.mem_cons.1 hf with rfl | hmem
    · have hother : ∀ g ∈ l, f.id ≠ g.id := by
        intro g hg heq
        exact hnd.1 (List.mem_map.2 ⟨g, hg, heq.symm⟩)
      have h1 := foldl_validateField_other l (validateField f σ).2 f.id hother
      rw [h1.1, h1.2, validateField_errorClass_self, validateField_ariaInvalid_self]
      exact ⟨rfl, rfl⟩
    · exact ih (validateField g σ).2 hnd.2 hmem

/-- C7: `validateForm` returns true exactly when `validateField` returns true
for every control of the form that has the required attribute (so it is true
when none has); its effect on the page is that of running `validateField` on
every required control in document order, so that (controls being distinct
elements) each required control, also one after the first invalid one, ends
with the error class and `aria-invalid` set exactly when it is invalid, while
the error class and `aria-invalid` of the controls without the required
attribute are left as they were. -/
theorem validateForm_spec (form : List Field) (σ : Dom) :
    ((validateForm form σ).1 = true ↔
      ∀ f ∈ form, f.required = true → ∀ τ, (validateField f τ).1 = true) ∧
    ((∀ f ∈ form, f.required = false) → (validateForm form σ).1 = true) ∧
    (validateForm form σ).2 =
      (requiredInputs form).foldl (fun τ f => (validateField f τ).2) σ ∧
    ((form.map (fun f => f.id)).Nodup →
      (∀ f ∈ form, f.required = true → ∀ τ,
        (validateForm form σ).2.errorClass f.id = !(validateField f τ).1 ∧
        (validateForm form σ).2.ariaInvalid f.id =
          if (validateField f τ).1 then none else Option.some "true".toList) ∧
      (∀ g ∈ form, g.required = false →
        (validateForm form σ).2.errorClass g.id = σ.errorClass g.id ∧
        (validateForm form σ).2.ariaInvalid g.id = σ.ariaInvalid g.id)) := by
  have hfold := validateForm_foldl (requiredInputs form) (true, σ)
  have h1 : (validateForm form σ).1 = (requiredInputs form).all (fun f => (fieldVerdict f).1) := by
    unfold validateForm
    rw [hfold]
    simp
  have h2 : (validateForm form σ).2 =
      (requiredInputs form).foldl (fun τ f => (validateField f τ).2) σ := by
    unfold validateForm
    rw [hfold]
  refine ⟨?_, ?_, h2, ?_⟩
  · rw [h1]
    simp only [List.all_eq_true, requiredInputs, List.mem_filter, validateField_fst]
    constructor
    · intro h f hf hreq _
      exact h f ⟨hf, hreq⟩
    · intro h f hf
      exact h f hf.1 hf.2 σ
  · intro hnone
    rw [h1]
    simp only [List.all_eq_true, requiredInputs, List.mem_filter]
    rintro f ⟨hf, hreq⟩
    rw [hnone f hf] at hreq
    exact absurd hreq (by decide)
  · intro hnd
    have hnd' : ((requiredInputs form).map (fun f => f.id)).Nodup :=
      (List.Sublist.map _ (List.filter_sublist _)).nodup hnd
    refine ⟨?_, ?_⟩
    · intro f hf hreq τ
      rw [h2, validateField_fst]
      exact foldl_validateField_self _ σ hnd' f (List.mem_filter.2 ⟨hf, by simpa using hreq⟩)
    · intro g hg hreq
      rw [h2]
      apply foldl_validateField_other
      intro f hf heq
      have hf' := List.mem_filter.1 hf
      have : g = f := List.inj_on_of_nodup_map hnd hg hf'.1 heq
      subst this
      rw [hreq] at hf'
      exact absurd hf'.2 (by decide)

/-- Witness for C7: in the sample form the phone control comes after the invalid
name control and still ends with the error class. -/
theorem validateForm_spec_witness :
    (validateForm sampleForm Dom.empty).2.errorClass "phone" = true :=
  (((validateForm_spec sampleForm Dom.empty).2.2.2 (by decide)).1
    { id := "phone", parent := 2, value := "01123".toList, type := "tel",
      required := true, min := none, max := none } (by simp [sampleForm]) rfl Dom.empty).1.trans
    (by decide)

/-! ## The `submit` event -/

/-- The volunteer listener opens the link whatever the validator found. -/
theorem volunteerListener_opened (doc : List Field) (p : Page) (v : VolunteerValues)
    (h : readVolunteer doc = Option.some v) :
    (volunteerListener doc p).opened = p.opened ++ [volunteerUrl v] := by
  simp [volunteerListener, h]

/-- C8 at the failing input: on the volunteer form whose required phone control
holds `01123`, `validateForm` returns false and the default action is
suppressed, yet the event ends with the WhatsApp URL passed to `window.open`. -/
theorem submitVolunteer_invalid_form_opens_link :
    (validateForm volunteerDoc Page.initial.dom).1 = false ∧
    (submitVolunteer volunteerDoc volunteerDoc Page.initial).defaultPrevented = true ∧
    (submitVolunteer volunteerDoc volunteerDoc Page.initial).opened =
      [volunteerUrl volunteerDocValues] := by
  refine ⟨by decide, by decide, ?_⟩
  have h : readVolunteer volunteerDoc = Option.some volunteerDocValues := by rfl
  rw [submitVolunteer, volunteerListener_opened _ _ _ h]
  rfl

/-! ## The text block and the URL -/

theorem volunteerText_eq (v : VolunteerValues) :
    volunteerText v = List.intercalate "%0A\n".toList (volunteerLines v) := by
  have h0 : "طلب تطوع جديد:%0A\n".toList = "طلب تطوع جديد:".toList ++ "%0A\n".toList := by
    decide
  unfold volunteerText volunteerLines
  rw [h0]
  simp only [List.intercalate, List.intersperse, List.flatten, List.append_assoc,
    List.append_nil]

theorem contactText_eq (v : ContactValues) :
    contactText v = List.intercalate "%0A\n".toList (contactLines v) := by
  have h0 : "رسالة جديدة من نموذج الاتصال من الموقع:%0A\n".toList =
      "رسالة جديدة من نموذج الاتصال من الموقع:".toList ++ "%0A\n".toList := by
    decide
  unfold contactText contactLines
  rw [h0]
  simp only [List.intercalate, List.intersperse, List.flatten, List.append_assoc,
    List.append_nil]

theorem waUrl_eq (text : Str) : waUrl text = waPrefix ++ text := by
  have h : "https://wa.me/".toList ++ phoneNumber ++ "?text=".toList = waPrefix := by decide
  rw [waUrl, h]

/-- Counterexample to C10 as stated: the URL opened for the sample volunteer
values is not the fixed front followed by the lines joined by `%0A` alone. -/
theorem volunteerUrl_join_counterexample :
    volunteerUrl volunteerDocValues ≠
      "https://wa.me/201012448385?text=".toList ++
        List.intercalate "%0A".toList (volunteerLines volunteerDocValues) := by
  decide

/-- C10, amended: the URL opened for a volunteer submission is
`https://wa.me/201012448385?text=` followed by the text block, and the block is
the introductory line and the ten `label: value` lines in the fixed order,
consecutive lines being joined by `%0A` followed by a line feed; likewise for
the contact form with its introductory line and its five lines. -/
theorem waUrl_format (v : VolunteerValues) (w : ContactValues) :
    volunteerUrl v =
      "https://wa.me/201012448385?text=".toList ++
        List.intercalate "%0A\n".toList (volunteerLines v) ∧
    volunteerLines v =
      [ "طلب تطوع جديد:".toList,
        "الاسم الكامل: ".toList ++ v.fullName,
        "العمر: ".toList ++ v.age,
        "رقم الهاتف: ".toList ++ v.phone,
        "البريد الإلكتروني: ".toList ++ orDash v.email,
        "المحافظة/المدينة: ".toList ++ v.city,
        "المجال المهتم به: ".toList ++ v.field,
        "الوقت المتاح: ".toList ++ v.availability,
        "الخبرة السابقة: ".toList ++ orDash v.experience,
        "الدافع للتطوع: ".toList ++ v.motivation,
        "المهارات الخاصة: ".toList ++ orDash v.skills ] ∧
    contactUrl w =
      "https://wa.me/201012448385?text=".toList ++
        List.intercalate "%0A\n".toList (contactLines w) ∧
    contactLines w =
      [ "رسالة جديدة من نموذج الاتصال من الموقع:".toList,
        "الاسم الكامل: ".toList ++ w.name,
        "رقم الهاتف: ".toList ++ w.phone,
        "البريد الإلكتروني: ".toList ++ orDash w.email,
        "الموضوع: ".toList ++ w.subject,
        "الرسالة: ".toList ++ w.message ] := by
  refine ⟨?_, rfl, ?_, rfl⟩
  · rw [volunteerUrl, waUrl_eq, volunteerText_eq]; rfl
  · rw [contactUrl, waUrl_eq, contactText_eq]; rfl

/-! ## Decoding the opened URL -/

set_option maxRecDepth 100000

/-- C9 at the failing inputs: the handler writes the values into the URL as
they are.  With the name `A&B` the decoded `text` parameter ends after `A`;
the name `%41` is read back as `A`, the same as for the name `A`; the name
`C++` is read back as `C` and two spaces; a line break typed into the
motivation is lost.  In each case the decoded parameter is not the block of the
entered values. -/
theorem volunteerUrl_values_not_encoded :
    textParam (volunteerUrl { sampleVolunteer with fullName := "A&B".toList }) =
      Option.some ("طلب تطوع جديد:".toList ++ "\n".toList ++ "الاسم الكامل: A".toList) ∧
    textParam (volunteerUrl { sampleVolunteer with fullName := "%41".toList }) =
      textParam (volunteerUrl { sampleVolunteer with fullName := "A".toList }) ∧
    textParam (volunteerUrl { sampleVolunteer with fullName := "C++".toList }) =
      Option.some (List.intercalate "\n".toList
        (volunteerLines { sampleVolunteer with fullName := "C  ".toList })) ∧
    textParam (volunteerUrl { sampleVolunteer with motivation := "a\nb".toList }) =
      Option.some (List.intercalate "\n".toList
        (volunteerLines { sampleVolunteer with motivation := "ab".toList })) ∧
    textParam (volunteerUrl { sampleVolunteer with fullName := "A&B".toList }) ≠
      Option.some (List.intercalate "\n".toList
        (volunteerLines { sampleVolunteer with fullName := "A&B".toList })) ∧
    textParam (volunteerUrl { sampleVolunteer with fullName := "%41".toList }) ≠
      Option.some (List.intercalate "\n".toList
        (volunteerLines { sampleVolunteer with fullName := "%41".toList })) ∧
    textParam (volunteerUrl { sampleVolunteer with fullName := "C++".toList }) ≠
      Option.some (List.intercalate "\n".toList
        (volunteerLines { sampleVolunteer with fullName := "C++".toList })) ∧
    textParam (volunteerUrl { sampleVolunteer with motivation := "a\nb".toList }) ≠
      Option.some (List.intercalate "\n".toList
        (volunteerLines { sampleVolunteer with motivation := "a\nb".toList })) := by
  decide

/-! ## Placeholders and the volunteer scenario -/

theorem orDash_eq (x : Str) : orDash x = if x = [] then "-".toList else x := by
  cases x <;> rfl

/-- C11: in the volunteer block the value written for e-mail, experience and
skills is `-` when the control is empty and the control's value otherwise; in
the contact block the same holds for e-mail; every other value is written as it
is.  Hence the line of a placeholder field is never the bare label. -/
theorem text_placeholders (v : VolunteerValues) (w : ContactValues) :
    volunteerText v = List.intercalate "%0A\n".toList
      [ "طلب تطوع جديد:".toList,
        "الاسم الكامل: ".toList ++ v.fullName,
        "العمر: ".toList ++ v.age,
        "رقم الهاتف: ".toList ++ v.phone,
        "البريد الإلكتروني: ".toList ++ (if v.email = [] then "-".toList else v.email),
        "المحافظة/المدينة: ".toList ++ v.city,
        "المجال المهتم به: ".toList ++ v.field,
        "الوقت المتاح: ".toList ++ v.availability,
        "الخبرة السابقة: ".toList ++ (if v.experience = [] then "-".toList else v.experience),
        "الدافع للتطوع: ".toList ++ v.motivation,
        "المهارات الخاصة: ".toList ++ (if v.skills = [] then "-".toList else v.skills) ] ∧
    contactText w = List.intercalate "%0A\n".toList
      [ "رسالة جديدة من نموذج الاتصال من الموقع:".toList,
        "الاسم الكامل: ".toList ++ w.name,
        "رقم الهاتف: ".toList ++ w.phone,
        "البريد الإلكتروني: ".toList ++ (if w.email = [] then "-".toList else w.email),
        "الموضوع: ".toList ++ w.subject,
        "الرسالة: ".toList ++ w.message ] ∧
    (∀ x : Str, (if x = [] then "-".toList else x) ≠ []) ∧
    (∀ label x : Str, label ++ (if x = [] then "-".toList else x) ≠ label) := by
  have hne : ∀ x : Str, (if x = [] then "-".toList else x) ≠ [] := by
    intro x
    split
    · decide
    · assumption
  refine ⟨?_, ?_, hne, ?_⟩
  · rw [volunteerText_eq, volunteerLines, orDash_eq, orDash_eq, orDash_eq]
  · rw [contactText_eq, contactLines, orDash_eq]
  · intro label x h
    have h' : label ++ (if x = [] then "-".toList else x) = label ++ [] := by simpa using h
    exact hne x (List.append_cancel_left h')

/-- Counterexample to C12 as stated: the block of the scenario values has
eleven lines, the introductory line and ten `label: value` lines, not nine. -/
theorem volunteer_scenario_nine_lines_counterexample :
    (splitOnChar '\n' (volunteerText sampleVolunteer)).length ≠ 1 + 9 ∧
    (textParam (volunteerUrl sampleVolunteer)).map (fun t => (splitOnChar '\n' t).length) ≠
      Option.some (1 + 9) := by
  decide

/-- C12, amended: the volunteer block is the introductory line followed by
exactly ten `label: value` lines in the declared order; for the scenario values
the lines show `-` for e-mail, experience and skills, in the block and in the
decoded `text` parameter. -/
theorem volunteer_scenario (v : VolunteerValues) :
    volunteerText v = List.intercalate "%0A\n".toList (volunteerLines v) ∧
    (volunteerLines v).length = 1 + 10 ∧
    (volunteerLines v).head? = Option.some "طلب تطوع جديد:".toList ∧
    volunteerLines sampleVolunteer =
      [ "طلب تطوع جديد:".toList,
        "الاسم الكامل: Ahmed".toList,
        "العمر: 22".toList,
        "رقم الهاتف: 01012345678".toList,
        "البريد الإلكتروني: -".toList,
        "المحافظة/المدينة: Cairo".toList,
        "المجال المهتم به: Education".toList,
        "الوقت المتاح: Weekends".toList,
        "الخبرة السابقة: -".toList,
        "الدافع للتطوع: Helping others".toList,
        "المهارات الخاصة: -".toList ] ∧
    (textParam (volunteerUrl sampleVolunteer)).map (splitOnChar '\n') =
      Option.some (volunteerLines sampleVolunteer) := by
  refine ⟨volunteerText_eq v, rfl, rfl, by decide, by decide⟩

/-! ## The Error Presenter -/

theorem Dom.eq_of_fields {a b : Dom} (h1 : ∀ i, a.errorClass i = b.errorClass i)
    (h2 : ∀ i, a.ariaInvalid i = b.ariaInvalid i) (h3 : a.encloses = b.encloses)
    (h4 : a.endPos = b.endPos) (h5 : a.messages = b.messages) :
    a = b := by
  cases a
  cases b
  simp only [Dom.mk.injEq]
  exact ⟨funext h1, funext h2, h3, h4, h5⟩

theorem setFirstText_append (found : Feedback → Bool) (m : Str) (a l : List Feedback)
    (ha : ∀ y ∈ a, found y = false) :
    setFirstText found m (a ++ l) = a ++ setFirstText found m l := by
  induction a with
  | nil => rfl
  | cons y a ih =>
    have hy : found y = false := ha y (by simp)
    have hstep : setFirstText found m (y :: (a ++ l)) = y :: setFirstText found m (a ++ l) := by
      simp [setFirstText, hy]
    rw [List.cons_append, hstep, ih (fun z hz => ha z (by simp [hz])), List.cons_append]

theorem setFirstText_setFirstText (found : Feedback → Bool) (m : Str) (l : List Feedback)
    (hfound : ∀ (x : Feedback) (t : Str), found { x with text := t } = found x) :
    setFirstText found m (setFirstText found m l) = setFirstText found m l := by
  induction l with
  | nil => rfl
  | cons x l ih =>
    by_cases hx : found x = true
    · simp [setFirstText, hx, hfound]
    · simp [setFirstText, hx, ih]

theorem find?_setFirstText (found : Feedback → Bool) (m : Str) (l : List Feedback)
    (hfound : ∀ (x : Feedback) (t : Str), found { x with text := t } = found x) :
    ((setFirstText found m l).find? found).isSome = (l.find? found).isSome := by
  induction l with
  | nil => rfl
  | cons x l ih =>
    by_cases hx : found x = true
    · simp [setFirstText, hx, hfound]
    · simp [setFirstText, hx, ih]

theorem placeMessage_spec (found : Feedback → Bool) (x : Feedback) (l : List Feedback)
    (hl : l.filter found = []) (hx : found x = true) :
    (placeMessage x l).find? found = Option.some x ∧
    setFirstText found x.text (placeMessage x l) = placeMessage x l := by
  have hsplit := List.takeWhile_append_dropWhile (fun y => decide (y.pos ≤ x.pos)) l
  have hnone : ∀ y ∈ l, found y = false := by
    intro y hy
    have := List.filter_eq_nil_iff.1 hl y hy
    simpa using this
  have ha : ∀ y ∈ l.takeWhile (fun y => decide (y.pos ≤ x.pos)), found y = false :=
    fun y hy => hnone y (List.takeWhile_subset _ hy)
  constructor
  · unfold placeMessage
    rw [List.find?_append, List.find?_eq_none.2 (fun y hy => by simp [ha y hy])]
    simp [hx]
  · unfold placeMessage
    rw [setFirstText_append found _ _ _ ha]
    simp [setFirstText, hx]

theorem showError_messages_found (field : Field) (m : Str) (σ : Dom) :
    ((showError field m σ).messages.find? (σ.below field.parent)).isSome = true ∧
    setFirstText (σ.below field.parent) m (showError field m σ).messages =
      (showError field m σ).messages := by
  cases hfind : σ.messages.find? (σ.below field.parent) with
  | none =>
    have hnil : σ.messages.filter (σ.below field.parent) = [] := by
      rw [List.filter_eq_nil_iff]
      intro a ha
      exact List.find?_eq_none.1 hfind a ha
    have hm : (showError field m σ).messages =
        placeMessage { pos := σ.endPos field.parent, owner := field.parent, text := m }
          σ.messages := by
      simp only [showError, hfind]
    have hspec := placeMessage_spec (σ.below field.parent)
      { pos := σ.endPos field.parent, owner := field.parent, text := m } σ.messages hnil
      (by simp [Dom.below])
    rw [hm, hspec.1]
    exact ⟨rfl, hspec.2⟩
  | some y =>
    have hm : (showError field m σ).messages =
        setFirstText (σ.below field.parent) m σ.messages := by
      simp only [showError, hfind]
    rw [hm, find?_setFirstText _ _ _ (Dom.below_text σ field.parent), hfind,
      setFirstText_setFirstText _ _ _ (Dom.below_text σ field.parent)]
    exact ⟨rfl, rfl⟩

theorem showError_showError (field : Field) (m : Str) (σ : Dom) :
    showError field m (showError field m σ) = showError field m σ := by
  have h := showError_messages_found field m σ
  apply Dom.eq_of_fields
  · intro i
    by_cases h : i = field.id <;> simp [showError, h]
  · intro i
    by_cases h : i = field.id <;> simp [showError, h]
  · rfl
  · rfl
  · have hb : (showError field m σ).below field.parent = σ.below field.parent := rfl
    show (match (showError field m σ).messages.find? ((showError field m σ).below field.parent)
      with
      | Option.some _ =>
          setFirstText ((showError field m σ).below field.parent) m (showError field m σ).messages
      | none =>
          placeMessage { pos := (showError field m σ).endPos field.parent, owner := field.parent,
                         text := m } (showError field m σ).messages) = _
    rw [hb]
    cases hf : (showError field m σ).messages.find? (σ.below field.parent) with
    | none =>
      rw [hf] at h
      exact absurd h.1 (by decide)
    | some y => exact h.2

theorem clearError_feedback_length (field : Field) (σ : Dom)
    (h : (σ.feedback field.parent).length ≤ 1) :
    ((clearError field σ).feedback field.parent).length ≤ 1 := by
  rw [feedback_clearError_self, List.length_tail]
  omega

theorem showError_feedback_length (field : Field) (m : Str) (σ : Dom)
    (h : (σ.feedback field.parent).length ≤ 1) :
    ((showError field m σ).feedback field.parent).length ≤ 1 := by
  rw [feedback_showError_self]
  cases hf : σ.feedback field.parent with
  | nil => simp
  | cons a rest =>
    rw [hf] at h
    simpa using h

theorem showError_feedback_self (field : Field) (m : Str) (σ : Dom)
    (h : (σ.feedback field.parent).length ≤ 1) :
    (showError field m σ).feedback field.parent = [m] := by
  rw [feedback_showError_self]
  cases hf : σ.feedback field.parent with
  | nil => rfl
  | cons a rest =>
    rw [hf] at h
    have hr : rest = [] := by
      cases rest with
      | nil => rfl
      | cons b rest => simp at h
    simp [hr]

theorem clearError_feedback_self (field : Field) (σ : Dom)
    (h : (σ.feedback field.parent).length ≤ 1) :
    (clearError field σ).feedback field.parent = [] := by
  rw [feedback_clearError_self]
  cases hf : σ.feedback field.parent with
  | nil => rfl
  | cons a rest =>
    rw [hf] at h
    cases rest with
    | nil => rfl
    | cons b rest => simp at h

theorem clearError_clearError (field : Field) (σ : Dom)
    (h : (σ.feedback field.parent).length ≤ 1) :
    clearError field (clearError field σ) = clearError field σ := by
  apply Dom.eq_of_fields
  · intro i
    by_cases hi : i = field.id <;> simp [clearError, hi]
  · intro i
    by_cases hi : i = field.id <;> simp [clearError, hi]
  · rfl
  · rfl
  · have hnil := clearError_feedback_self field σ h
    have hnil' : (σ.messages.eraseP (σ.below field.parent)).filter (σ.below field.parent) =
        [] := by
      have : ((σ.messages.eraseP (σ.below field.parent)).filter (σ.below field.parent)).map
          (fun x => x.text) = [] := hnil
      simpa using this
    show (σ.messages.eraseP (σ.below field.parent)).eraseP (σ.below field.parent) =
      σ.messages.eraseP (σ.below field.parent)
    apply List.eraseP_of_forall_not
    intro a ha
    have := List.filter_eq_nil_iff.1 hnil' a ha
    simpa using this

theorem runCalls_feedback_length (field : Field) (calls : List PresenterCall) (σ : Dom)
    (h : (σ.feedback field.parent).length ≤ 1) :
    ((runCalls field calls σ).feedback field.parent).length ≤ 1 := by
  induction calls generalizing σ with
  | nil => simpa [runCalls] using h
  | cons call calls ih =>
    simp only [runCalls, List.foldl_cons]
    apply ih
    cases call with
    | showError m => exact showError_feedback_length field m σ h
    | clearError => exact clearError_feedback_length field σ h

/-- C13: on a page whose parent element holds at most one feedback element,
`showError` applied twice gives the state of applying it once, and that state
has exactly one feedback element under the parent, with the message as text;
`clearError` applied twice gives the state of applying it once; `clearError`
after `showError` leaves no feedback element, no error class and no
`aria-invalid`; and after any sequence of `showError` and `clearError` calls on
the field the parent holds at most one feedback element. -/
theorem presenter_idempotent (field : Field) (m : Str) (σ : Dom)
    (h : (σ.feedback field.parent).length ≤ 1) :
    showError field m (showError field m σ) = showError field m σ ∧
    (showError field m σ).feedback field.parent = [m] ∧
    clearError field (clearError field σ) = clearError field σ ∧
    (clearError field (showError field m σ)).feedback field.parent = [] ∧
    (clearError field (showError field m σ)).errorClass field.id = false ∧
    (clearError field (showError field m σ)).ariaInvalid field.id = none ∧
    (∀ calls : List PresenterCall,
      ((runCalls field calls σ).feedback field.parent).length ≤ 1) := by
  refine ⟨showError_showError field m σ, showError_feedback_self field m σ h,
    clearError_clearError field σ h, ?_, ?_, ?_, ?_⟩
  · exact clearError_feedback_self field _ (showError_feedback_length field m σ h)
  · simp [clearError]
  · simp [clearError]
  · intro calls
    exact runCalls_feedback_length field calls σ h

/-- Witness for C13: a phone control whose parent already shows an earlier
message. -/
theorem presenter_idempotent_witness :
    (showError
      { id := "phone", parent := 2, value := "01123".toList, type := "tel", required := true,
        min := none, max := none } msgPhone
      (Dom.showing 2 msgRequired)).feedback 2 = [msgPhone] :=
  (presenter_idempotent
    { id := "phone", parent := 2, value := "01123".toList, type := "tel", required := true,
      min := none, max := none } msgPhone
    (Dom.showing 2 msgRequired) (by decide)).2.1

/-! ## The `input` listener -/

theorem filter_eraseP_other (found other : Feedback → Bool) (l : List Feedback)
    (h : ∀ x, l.find? found = Option.some x → other x = false) :
    (l.eraseP found).filter other = l.filter other := by
  induction l with
  | nil => rfl
  | cons y l ih =>
    by_cases hy : found y = true
    · have ho : other y = false := h y (by simp [List.find?_cons, hy])
      simp [List.eraseP_cons, List.filter_cons, hy, ho]
    · have ih' := ih (fun x hx => h x (by simpa [List.find?_cons, hy] using hx))
      simp [List.eraseP_cons, List.filter_cons, hy, ih']

theorem filter_eraseP_other_length (found other : Feedback → Bool) (l : List Feedback)
    (x : Feedback) (hx : l.find? found = Option.some x) (ho : other x = true) :
    ((l.eraseP found).filter other).length + 1 = (l.filter other).length := by
  induction l with
  | nil => simp at hx
  | cons y l ih =>
    by_cases hy : found y = true
    · have hxy : y = x := by simpa [List.find?_cons, hy] using hx
      subst hxy
      simp [List.eraseP_cons, List.filter_cons, hy, ho]
    · have ih' := ih (by simpa [List.find?_cons, hy] using hx)
      by_cases hoy : other y = true
      · simp [List.eraseP_cons, List.filter_cons, hy, hoy, ih']
      · simp [List.eraseP_cons, List.filter_cons, hy, hoy, ih']

theorem feedback_clearError_other (f : Field) (σ : Dom) (q : Nat)
    (h : ∀ x, σ.messages.find? (σ.below f.parent) = Option.some x → σ.below q x = false) :
    (clearError f σ).feedback q = σ.feedback q := by
  show ((σ.messages.eraseP (σ.below f.parent)).filter (σ.below q)).map (fun x => x.text) = _
  rw [filter_eraseP_other _ _ _ h]
  rfl

/-- Counterexample to C14 as stated: in a form whose two controls share a
parent, after a failed submit the required name shows its message; an `input`
event on the other control removes that message.  The same happens on the page
`Dom.nested`, where the parent of the name lies inside the parent of the other
control. -/
theorem inputListener_shared_parent_counterexample :
    (validateForm sharedParentForm Dom.empty).1 = false ∧
    shownMessage
      { id := "full-name", parent := 1, value := [], type := "text",
        required := true, min := none, max := none }
      (validateForm sharedParentForm Dom.empty).2 = Option.some msgRequired ∧
    shownMessage
      { id := "full-name", parent := 1, value := [], type := "text",
        required := true, min := none, max := none }
      (inputListener
        { id := "note", parent := 1, value := "x".toList, type := "text",
          required := false, min := none, max := none }
        (validateForm sharedParentForm Dom.empty).2) = none ∧
    (validateForm nestedForm Dom.nested).1 = false ∧
    shownMessage
      { id := "full-name", parent := 1, value := [], type := "text",
        required := true, min := none, max := none }
      (validateForm nestedForm Dom.nested).2 = Option.some msgRequired ∧
    shownMessage
      { id := "full-name", parent := 1, value := [], type := "text",
        required := true, min := none, max := none }
      (inputListener
        { id := "note", parent := 0, value := "x".toList, type := "text",
          required := false, min := none, max := none }
        (validateForm nestedForm Dom.nested).2) = none := by
  decide

/-- C14, amended: an `input` event on a control `f` runs `clearError f` and
nothing else.  For every other control `g` the error class and `aria-invalid`
are unchanged.  The element removed is the first feedback element below the
parent of `f`: when it does not lie below the parent of `g`, the feedback
elements below the parent of `g`, and the message shown for `g`, are unchanged;
this is so on a tree-shaped page whenever the two parents differ and neither
lies inside the other.  When it does lie below the parent of `g`, as it does
when the two parents are the same, the parent of `g` loses one feedback
element. -/
theorem inputListener_frame (f g : Field) (σ : Dom) (hne : g.id ≠ f.id) :
    inputListener f σ = clearError f σ ∧
    (inputListener f σ).errorClass g.id = σ.errorClass g.id ∧
    (inputListener f σ).ariaInvalid g.id = σ.ariaInvalid g.id ∧
    ((∀ x, σ.messages.find? (σ.below f.parent) = Option.some x → σ.below g.parent x = false) →
      (inputListener f σ).feedback g.parent = σ.feedback g.parent ∧
      shownMessage g (inputListener f σ) = shownMessage g σ) ∧
    (σ.TreeShaped → g.parent ≠ f.parent → σ.encloses f.parent g.parent = false →
      σ.encloses g.parent f.parent = false →
      (inputListener f σ).feedback g.parent = σ.feedback g.parent ∧
      shownMessage g (inputListener f σ) = shownMessage g σ) ∧
    (∀ x, σ.messages.find? (σ.below f.parent) = Option.some x → σ.below g.parent x = true →
      ((inputListener f σ).feedback g.parent).length + 1 = (σ.feedback g.parent).length) ∧
    (g.parent = f.parent →
      (inputListener f σ).feedback g.parent = (σ.feedback g.parent).tail) := by
  have keep : (∀ x, σ.messages.find? (σ.below f.parent) = Option.some x →
      σ.below g.parent x = false) →
      (inputListener f σ).feedback g.parent = σ.feedback g.parent ∧
      shownMessage g (inputListener f σ) = shownMessage g σ := by
    intro h
    have h1 := feedback_clearError_other f σ g.parent h
    exact ⟨h1, by unfold shownMessage inputListener; rw [h1]⟩
  refine ⟨rfl, by simp [inputListener, clearError, hne], by simp [inputListener, clearError, hne],
    keep, ?_, ?_, ?_⟩
  · intro htree hp h1 h2
    apply keep
    intro x hx
    have hbf : σ.below f.parent x = true := List.find?_some hx
    cases hbg : σ.below g.parent x with
    | false => rfl
    | true =>
      have h3 : x.owner = f.parent ∨ σ.encloses f.parent x.owner = true := by
        simpa [Dom.below] using hbf
      have h4 : x.owner = g.parent ∨ σ.encloses g.parent x.owner = true := by
        simpa [Dom.below] using hbg
      rcases htree f.parent g.parent x.owner h3 h4 with h | h | h
      · exact absurd h.symm hp
      · rw [h1] at h
        exact absurd h (by decide)
      · rw [h2] at h
        exact absurd h (by decide)
  · intro x hx hbg
    show (((σ.messages.eraseP (σ.below f.parent)).filter (σ.below g.parent)).map
      (fun x => x.text)).length + 1 = ((σ.messages.filter (σ.below g.parent)).map
      (fun x => x.text)).length
    rw [List.length_map, List.length_map]
    exact filter_eraseP_other_length _ _ _ x hx hbg
  · intro hp
    rw [hp]
    exact feedback_clearError_self f σ

/-- Witness for C14: in the sample form, after the failed submit, an `input`
event on the name control leaves the message of the phone control in place. -/
theorem inputListener_frame_witness :
    shownMessage
      { id := "phone", parent := 2, value := "01123".toList, type := "tel",
        required := true, min := none, max := none }
      (inputListener
        { id := "full-name", parent := 1, value := "  ".toList, type := "text",
          required := true, min := none, max := none }
        (validateForm sampleForm Dom.empty).2) =
    shownMessage
      { id := "phone", parent := 2, value := "01123".toList, type := "tel",
        required := true, min := none, max := none }
      (validateForm sampleForm Dom.empty).2 :=
  ((inputListener_frame
    { id := "full-name", parent := 1, value := "  ".toList, type := "text",
      required := true, min := none, max := none }
    { id := "phone", parent := 2, value := "01123".toList, type := "tel",
      required := true, min := none, max := none }
    (validateForm sampleForm Dom.empty).2 (by decide)).2.2.2.2.1
    (fun a b o h1 h2 => by
      have he : (validateForm sampleForm Dom.empty).2.encloses = fun _ _ => false := rfl
      rw [he] at h1 h2
      simp only [Bool.false_eq_true, or_false] at h1 h2
      exact Or.inl (h1.symm.trans h2))
    (by decide) rfl rfl).2

/-! ## Verdict and presenter agree -/

theorem msgMin_ne_nil (lo : Str) : msgMin lo ≠ [] := by
  simp [msgMin]

theorem msgMax_ne_nil (hi : Str) : msgMax hi ≠ [] := by
  simp [msgMax]

theorem numberVerdict_message (min max : Option Str) (value : Str)
    (h : (numberVerdict min max value).1 = false) : (numberVerdict min max value).2 ≠ [] := by
  revert h
  unfold numberVerdict
  cases min with
  | none =>
    cases max with
    | none => simp
    | some hi =>
      simp only
      split
      · intro _; exact msgMax_ne_nil hi
      · simp
  | some lo =>
    cases max with
    | none =>
      simp only
      split
      · intro _; exact msgMin_ne_nil lo
      · simp
    | some hi =>
      simp only
      split
      · intro _; exact msgMax_ne_nil hi
      · split
        · intro _; exact msgMin_ne_nil lo
        · simp

theorem fieldVerdict_message (field : Field) (h : (fieldVerdict field).1 = false) :
    (fieldVerdict field).2 ≠ [] := by
  revert h
  unfold fieldVerdict
  simp only
  split
  · intro _; decide
  · split
    · split
      · intro _; decide
      · simp
    · split
      · split
        · intro _; decide
        · simp
      · split
        · exact numberVerdict_message _ _ _
        · simp

theorem fieldVerdict_congr (f g : Field) (hv : f.value = g.value) (ht : f.type = g.type)
    (hr : f.required = g.required) (hmin : f.min = g.min) (hmax : f.max = g.max) :
    fieldVerdict f = fieldVerdict g := by
  simp only [fieldVerdict, hv, ht, hr, hmin, hmax]

theorem validateField_feedback (field : Field) (σ : Dom)
    (h : (σ.feedback field.parent).length ≤ 1) :
    (validateField field σ).2.feedback field.parent =
      if (fieldVerdict field).1 then [] else [(fieldVerdict field).2] := by
  cases hv : (fieldVerdict field).1
  · rw [validateField_invalid field σ hv]
    simpa using showError_feedback_self field _ _ (clearError_feedback_length field σ h)
  · rw [validateField_valid field σ hv]
    simpa using clearError_feedback_self field σ h

/-- C17: whatever the earlier presenter state of the field (error class and
`aria-invalid` set or not, at most one feedback element with any text), after
`validateField` returns false the field has the error class,
`aria-invalid="true"` and its parent holds exactly one feedback element, whose
text is not empty; after it returns true the field has no error class, no
`aria-invalid` and its parent holds no feedback element.  The result and the
feedback depend only on the value, type, required flag, `min` and `max` of the
field. -/
theorem validateField_presenter_consistent (field : Field) (σ : Dom)
    (h : (σ.feedback field.parent).length ≤ 1) :
    ((validateField field σ).1 = false →
      (validateField field σ).2.errorClass field.id = true ∧
      (validateField field σ).2.ariaInvalid field.id = Option.some "true".toList ∧
      ∃ message : Str, message ≠ [] ∧
        (validateField field σ).2.feedback field.parent = [message]) ∧
    ((validateField field σ).1 = true →
      (validateField field σ).2.errorClass field.id = false ∧
      (validateField field σ).2.ariaInvalid field.id = none ∧
      (validateField field σ).2.feedback field.parent = []) ∧
    (∀ (g : Field) (τ : Dom), g.value = field.value → g.type = field.type →
      g.required = field.required → g.min = field.min → g.max = field.max →
      (τ.feedback g.parent).length ≤ 1 →
      (validateField g τ).1 = (validateField field σ).1 ∧
      (validateField g τ).2.feedback g.parent =
        (validateField field σ).2.feedback field.parent) := by
  refine ⟨?_, ?_, ?_⟩
  · intro hr
    rw [validateField_fst] at hr
    refine ⟨?_, ?_, (fieldVerdict field).2, fieldVerdict_message field hr, ?_⟩
    · rw [validateField_errorClass_self, hr]
      rfl
    · rw [validateField_ariaInvalid_self, hr]
      rfl
    · rw [validateField_feedback field σ h, hr]
      rfl
  · intro hr
    rw [validateField_fst] at hr
    refine ⟨?_, ?_, ?_⟩
    · rw [validateField_errorClass_self, hr]
      rfl
    · rw [validateField_ariaInvalid_self, hr]
      rfl
    · rw [validateField_feedback field σ h, hr]
      rfl
  · intro g τ hv ht hreq hmin hmax hτ
    have hc := fieldVerdict_congr g field hv ht hreq hmin hmax
    rw [validateField_fst, validateField_fst, validateField_feedback g τ hτ,
      validateField_feedback field σ h, hc]
    exact ⟨rfl, rfl⟩

/-- Witness for C17: a phone control holding `01123` whose parent shows an
earlier message ends with the invalid-phone message alone. -/
theorem validateField_presenter_consistent_witness :
    ∃ message : Str, message ≠ [] ∧
      (validateField
        { id := "phone", parent := 2, value := "01123".toList, type := "tel", required := true,
          min := none, max := none }
        (Dom.showing 2 msgRequired)).2.feedback 2 = [message] :=
  ((validateField_presenter_consistent
    { id := "phone", parent := 2, value := "01123".toList, type := "tel", required := true,
      min := none, max := none }
    (Dom.showing 2 msgRequired) (by decide)).1 (by decide)).2.2

/-! ## `FilterTabs` -/

theorem includes_iff (s x : Str) : includes s x = true ↔ ∃ a b, s = a ++ x ++ b := by
  simp only [includes, List.any_eq_true, List.mem_tails, List.isPrefixOf_iff_prefix]
  constructor
  · rintro ⟨t, ⟨a, rfl⟩, ⟨b, rfl⟩⟩
    exact ⟨a, b, by simp⟩
  · rintro ⟨a, b, rfl⟩
    exact ⟨x ++ b, ⟨a, by simp⟩, ⟨b, rfl⟩⟩

theorem Callback.run_style (cb : Callback) (s : FilterState) (i : Nat) :
    (cb.run s).style i = if i = cb.target then cb.apply (s.style i) else s.style i := by
  cases cb with
  | fadeInDone e =>
    by_cases h : i = e <;> simp [Callback.run, Callback.apply, Callback.target,
      FilterState.setStyle, h]
  | fadeOutDone e =>
    by_cases h : i = e <;> simp [Callback.run, Callback.apply, Callback.target,
      FilterState.setStyle, h]

theorem foldl_run_style_other (T : List Timer) (s : FilterState) (i : Nat)
    (h : ∀ tm ∈ T, tm.callback.target ≠ i) :
    (T.foldl (fun acc tm => tm.callback.run acc) s).style i = s.style i := by
  induction T generalizing s with
  | nil => rfl
  | cons tm T ih =>
    simp only [List.foldl_cons]
    rw [ih _ (fun tm' h' => h tm' (by simp [h'])), Callback.run_style]
    have : i ≠ tm.callback.target := fun e => h tm (by simp) e.symm
    simp [this]

theorem foldl_run_style_self (T : List Timer) (s : FilterState)
    (hnd : (T.map (fun tm => tm.callback.target)).Nodup) (tm : Timer) (hmem : tm ∈ T) :
    (T.foldl (fun acc tm => tm.callback.run acc) s).style tm.callback.target =
      tm.callback.apply (s.style tm.callback.target) := by
  induction T generalizing s with
  | nil => simp at hmem
  | cons tm' T ih =>
    simp only [List.map_cons, List.nodup_cons] at hnd
    simp only [List.foldl_cons]
    rcases List.mem_cons.1 hmem with rfl | hmem'
    · rw [foldl_run_style_other _ _ _ (fun x hx e => hnd.1 (List.mem_map.2 ⟨x, hx, e⟩)),
        Callback.run_style]
      simp
    · rw [ih _ hnd.2 hmem', Callback.run_style]
      have : tm.callback.target ≠ tm'.callback.target := fun e =>
        hnd.1 (List.mem_map.2 ⟨tm, hmem', e⟩)
      simp [this]

theorem advanceTo_style_fired (t : Nat) (s : FilterState)
    (hnd : (s.timers.map (fun tm => tm.callback.target)).Nodup) (tm : Timer)
    (hmem : tm ∈ s.timers) (hdue : tm.due ≤ t) :
    (advanceTo t s).style tm.callback.target = tm.callback.apply (s.style tm.callback.target) := by
  have hperm := List.perm_insertionSort (fun a b : Timer => a.due ≤ b.due)
    (s.timers.filter (fun tm => tm.due ≤ t))
  have hnd' : (((s.timers.filter (fun tm => tm.due ≤ t)).insertionSort
      (fun a b => a.due ≤ b.due)).map (fun tm => tm.callback.target)).Nodup := by
    rw [(hperm.map _).nodup_iff]
    exact (List.Sublist.map _ (List.filter_sublist _)).nodup hnd
  have hmem' : tm ∈ (s.timers.filter (fun tm => tm.due ≤ t)).insertionSort
      (fun a b => a.due ≤ b.due) := by
    rw [hperm.mem_iff]
    exact List.mem_filter.2 ⟨hmem, by simpa using hdue⟩
  unfold advanceTo
  rw [foldl_run_style_self _ _ hnd' tm hmem']

theorem advanceTo_style_pending (t : Nat) (s : FilterState) (i : Nat)
    (h : ∀ tm ∈ s.timers, tm.callback.target = i → t < tm.due) :
    (advanceTo t s).style i = s.style i := by
  have hperm := List.perm_insertionSort (fun a b : Timer => a.due ≤ b.due)
    (s.timers.filter (fun tm => tm.due ≤ t))
  unfold advanceTo
  rw [foldl_run_style_other]
  intro tm htm e
  rw [hperm.mem_iff] at htm
  have := List.mem_filter.1 htm
  have h1 := h tm this.1 e
  have h2 : tm.due ≤ t := by simpa using this.2
  omega

theorem FilterState.eq_of_parts {a b : FilterState} (h1 : a.now = b.now)
    (h2 : ∀ i, a.style i = b.style i) (h3 : a.timers = b.timers) : a = b := by
  cases a
  cases b
  simp only [FilterState.mk.injEq]
  exact ⟨h1, funext h2, h3⟩

theorem filterItem_eq (filter : Str) (s : FilterState) (item : Item) :
    filterItem filter s item =
      { now := s.now
        style := fun i => if i = item.id then immediate filter item (s.style i) else s.style i
        timers := s.timers ++ [scheduled filter s.now item] } := by
  by_cases h1 : filter = ['a', 'l', 'l'] <;> cases h2 : includes item.status filter <;>
    apply FilterState.eq_of_parts
  all_goals first
    | (intro i
       by_cases hi : i = item.id <;>
         simp [filterItem, immediate, scheduled, selects, fadeIn, fadeOut,
           FilterState.setStyle, FilterState.setTimeout, h1, h2, hi])
    | simp [filterItem, immediate, scheduled, selects, fadeIn, fadeOut,
        FilterState.setStyle, FilterState.setTimeout, h1, h2]

theorem filterItems_now (filter : Str) (items : List Item) (s : FilterState) :
    (filterItems filter items s).now = s.now := by
  unfold filterItems
  induction items generalizing s with
  | nil => rfl
  | cons item items ih =>
    rw [List.foldl_cons, ih, filterItem_eq]

theorem filterItems_timers (filter : Str) (items : List Item) (s : FilterState) :
    (filterItems filter items s).timers = s.timers ++ items.map (scheduled filter s.now) := by
  unfold filterItems
  induction items generalizing s with
  | nil => simp
  | cons item items ih =>
    rw [List.foldl_cons, ih, filterItem_eq]
    simp

theorem filterItems_style_other (filter : Str) (items : List Item) (s : FilterState) (i : Nat)
    (h : ∀ item ∈ items, item.id ≠ i) :
    (filterItems filter items s).style i = s.style i := by
  unfold filterItems
  induction items generalizing s with
  | nil => rfl
  | cons item items ih =>
    rw [List.foldl_cons, ih _ (fun x hx => h x (by simp [hx])), filterItem_eq]
    have : i ≠ item.id := fun e => h item (by simp) e.symm
    simp [this]

theorem filterItems_style_self (filter : Str) (items : List Item) (s : FilterState)
    (hnd : (items.map (fun item => item.id)).Nodup) (item : Item) (hmem : item ∈ items) :
    (filterItems filter items s).style item.id = immediate filter item (s.style item.id) := by
  induction items generalizing s with
  | nil => simp at hmem
  | cons x items ih =>
    simp only [List.map_cons, List.nodup_cons] at hnd
    rcases List.mem_cons.1 hmem with rfl | hmem'
    · have h := filterItems_style_other filter items (filterItem filter s item) item.id
        (fun y hy e => hnd.1 (List.mem_map.2 ⟨y, hy, e⟩))
      unfold filterItems at h ⊢
      rw [List.foldl_cons, h, filterItem_eq]
      simp
    · have h := ih (filterItem filter s x) hnd.2 hmem'
      unfold filterItems at h ⊢
      rw [List.foldl_cons, h, filterItem_eq]
      have : item.id ≠ x.id := fun e => hnd.1 (List.mem_map.2 ⟨item, hmem', e⟩)
      simp [this]

theorem scheduled_target (filter : Str) (now : Nat) (item : Item) :
    (scheduled filter now item).callback.target = item.id := by
  unfold scheduled
  split <;> rfl

/-- The style of an item at time `t` after `filterItems` ran on an idle page. -/
theorem advanceTo_filterItems_style (filter : Str) (items : List Item) (s : FilterState)
    (hnd : (items.map (fun item => item.id)).Nodup) (hidle : s.timers = [])
    (item : Item) (hmem : item ∈ items) (t : Nat) :
    (advanceTo t (filterItems filter items s)).style item.id =
      if (scheduled filter s.now item).due ≤ t then
        (scheduled filter s.now item).callback.apply (immediate filter item (s.style item.id))
      else immediate filter item (s.style item.id) := by
  have htimers : (filterItems filter items s).timers = items.map (scheduled filter s.now) := by
    rw [filterItems_timers, hidle, List.nil_append]
  have htargets : (filterItems filter items s).timers.map (fun tm => tm.callback.target) =
      items.map (fun item => item.id) := by
    rw [htimers, List.map_map]
    apply List.map_congr_left
    intro x _
    exact scheduled_target filter s.now x
  by_cases hdue : (scheduled filter s.now item).due ≤ t
  · have h := advanceTo_style_fired t (filterItems filter items s) (by rw [htargets]; exact hnd)
      (scheduled filter s.now item) (by rw [htimers]; exact List.mem_map.2 ⟨item, hmem, rfl⟩) hdue
    rw [scheduled_target] at h
    rw [h, filterItems_style_self filter items s hnd item hmem]
    simp [hdue]
  · rw [advanceTo_style_pending, filterItems_style_self filter items s hnd item hmem]
    · simp [hdue]
    · intro tm htm htarget
      rw [htimers] at htm
      obtain ⟨x, hx, rfl⟩ := List.mem_map.1 htm
      rw [scheduled_target] at htarget
      have : x = item := List.inj_on_of_nodup_map hnd hx hmem htarget
      subst this
      omega

theorem selects_iff (filter : Str) (item : Item) :
    selects filter item = true ↔
      filter = "all".toList ∨ ∃ a b, item.status = a ++ filter ++ b := by
  simp only [selects, Bool.or_eq_true, beq_iff_eq, includes_iff]

theorem Callback.run_timers (cb : Callback) (s : FilterState) : (cb.run s).timers = s.timers := by
  cases cb <;> rfl

theorem foldl_run_timers (T : List Timer) (s : FilterState) :
    (T.foldl (fun acc tm => tm.callback.run acc) s).timers = s.timers := by
  induction T generalizing s with
  | nil => rfl
  | cons tm T ih => rw [List.foldl_cons, ih, Callback.run_timers]

theorem advanceTo_timers (t : Nat) (s : FilterState) :
    (advanceTo t s).timers = s.timers.filter (fun tm => t < tm.due) := by
  unfold advanceTo
  rw [foldl_run_timers]

theorem scheduled_due_le (filter : Str) (now : Nat) (item : Item) :
    (scheduled filter now item).due ≤ now + 300 := by
  unfold scheduled
  split <;> simp

/-- C15: `filterItems` applied on a page with no timer pending, followed by the
timers it sets.  For the filter `all` every item ends visible (displayed, with
opacity `1`); for another filter an item ends visible exactly when its
`data-status` contains the filter as a substring; any other item has display
`none` from 300 ms on, and until then its display is what it was before the
call.  After 300 ms no timer is pending. -/
theorem filterItems_settles (filter : Str) (items : List Item) (s : FilterState)
    (hnd : (items.map (fun item => item.id)).Nodup) (hidle : s.timers = [])
    (item : Item) (hmem : item ∈ items) :
    (filter = "all".toList → ∀ t, s.now + 10 ≤ t →
      (advanceTo t (filterItems filter items s)).visible item.id) ∧
    (filter ≠ "all".toList → ∀ t, s.now + 300 ≤ t →
      ((advanceTo t (filterItems filter items s)).visible item.id ↔
        ∃ a b, item.status = a ++ filter ++ b)) ∧
    (filter ≠ "all".toList → (¬ ∃ a b, item.status = a ++ filter ++ b) →
      (∀ t, s.now + 300 ≤ t →
        ((advanceTo t (filterItems filter items s)).style item.id).display = "none".toList) ∧
      (∀ t, t < s.now + 300 →
        ((advanceTo t (filterItems filter items s)).style item.id).display =
          (s.style item.id).display)) ∧
    (∀ t, s.now + 300 ≤ t → (advanceTo t (filterItems filter items s)).timers = []) := by
  have key := advanceTo_filterItems_style filter items s hnd hidle item hmem
  have shown : selects filter item = true → ∀ t, s.now + 10 ≤ t →
      (advanceTo t (filterItems filter items s)).visible item.id := by
    intro hsel t ht
    unfold FilterState.visible
    rw [key t]
    simp only [scheduled, immediate, hsel, if_true]
    rw [if_pos ht]
    exact ⟨by simp [Callback.apply], rfl⟩
  have hidden : selects filter item = false →
      (∀ t, s.now + 300 ≤ t →
        ((advanceTo t (filterItems filter items s)).style item.id).display = "none".toList) ∧
      (∀ t, t < s.now + 300 →
        ((advanceTo t (filterItems filter items s)).style item.id).display =
          (s.style item.id).display) := by
    intro hsel
    constructor
    · intro t ht
      rw [key t]
      simp only [scheduled, immediate, hsel, Bool.false_eq_true, if_false]
      rw [if_pos ht]
      rfl
    · intro t ht
      rw [key t]
      simp only [scheduled, immediate, hsel, Bool.false_eq_true, if_false]
      rw [if_neg (by omega)]
  refine ⟨?_, ?_, ?_, ?_⟩
  · intro hall
    exact shown ((selects_iff filter item).2 (Or.inl hall))
  · intro hne t ht
    constructor
    · intro hvis
      by_contra hnot
      have hsel : selects filter item = false := by
        rw [Bool.eq_false_iff]
        intro h
        rcases (selects_iff filter item).1 h with h | h
        · exact hne h
        · exact hnot h
      exact hvis.1 ((hidden hsel).1 t ht)
    · intro hsub
      exact shown ((selects_iff filter item).2 (Or.inr hsub)) t (by omega)
  · intro hne hnot
    apply hidden
    rw [Bool.eq_false_iff]
    intro h
    rcases (selects_iff filter item).1 h with h | h
    · exact hne h
    · exact hnot h
  · intro t ht
    rw [advanceTo_timers, filterItems_timers, hidle, List.nil_append, List.filter_eq_nil_iff]
    intro tm htm
    obtain ⟨x, _, rfl⟩ := List.mem_map.1 htm
    have := scheduled_due_le filter s.now x
    simp only [decide_eq_true_eq, not_lt]
    omega

/-- Witness for C15: on the sample page the filter `ongoing` hides the
`completed` item from 300 ms on. -/
theorem filterItems_settles_witness :
    ((advanceTo 300 (filterItems "ongoing".toList sampleItems FilterState.sample)).style
      0).display = "none".toList :=
  (((filterItems_settles "ongoing".toList sampleItems FilterState.sample (by decide) rfl
    { id := 0, status := "completed".toList } (by simp [sampleItems])).2.2.1 (by decide)
    (by
      rw [← includes_iff]
      decide)).1 300 (by decide))

/-- C16 at the failing input: on the sample page a click on `ongoing` at 0 ms
and a click on `all` at 100 ms.  The second click shows the item, and at
110 ms it is visible; the callback `fadeOut` set at the first click fires at
300 ms and hides it, so that with every timer fired the item selected by the
latest filter is not visible.  With the second click at 400 ms the item ends
visible. -/
theorem click_stale_fadeOut_hides_item :
    selects "all".toList { id := 0, status := "completed".toList } = true ∧
    (advanceTo 110 (click sampleItems 100 "all".toList
      (click sampleItems 0 "ongoing".toList FilterState.sample))).visible 0 ∧
    (advanceTo 300 (click sampleItems 100 "all".toList
      (click sampleItems 0 "ongoing".toList FilterState.sample))).timers = [] ∧
    ((advanceTo 300 (click sampleItems 100 "all".toList
      (click sampleItems 0 "ongoing".toList FilterState.sample))).style 0).display =
        "none".toList ∧
    ¬ (advanceTo 300 (click sampleItems 100 "all".toList
      (click sampleItems 0 "ongoing".toList FilterState.sample))).visible 0 ∧
    (advanceTo 700 (click sampleItems 400 "all".toList
      (click sampleItems 0 "ongoing".toList FilterState.sample))).visible 0 := by
  have hd : ((advanceTo 300 (click sampleItems 100 "all".toList
      (click sampleItems 0 "ongoing".toList FilterState.sample))).style 0).display =
        "none".toList := by decide
  refine ⟨by decide, ⟨by decide, by decide⟩, rfl, hd, fun h => h.1 hd,
    ⟨by decide, by decide⟩⟩

end SawaedAlKhair
